import Mathlib

/-!
Shallow embedding of the twinleaf TIO proxy engine (`src/tio/proxy.rs`) and of
the RPC value codec helpers (`twinleaf/src/tio/util.rs`).

Conventions of the embedding:
* machine integers (`u8`, `u16`, `u32`, `u64`) are `Nat`; signed integers are
  `Int`; the one place where `u16` overflow matters (`next_rpc_id += 1`) takes
  an explicit `% 65536` (release-mode wrapping, the spec allows 16-bit wrap);
* `Instant` and `Duration` are `Nat` milliseconds;
* `HashMap` fields become association lists (`alookup`/`aremove`/`aupdate`),
  the `BTreeMap` deadline index becomes a list sorted strictly by key, buckets
  (`HashSet<u16>`) become duplicate-free lists;
* crossbeam channels become the list of packets currently queued, with the
  bound kept explicitly (`tx`, `txCap`); `try_send` on a full queue is a
  `SendResult.full` outcome;
* Rust panics (`unwrap()` on `None`/`Err`, out-of-range slice) are modelled by
  returning `none` from an `Option`-valued function;
* the optional status sink is modelled as the `events` trace list (the
  `send_event` path with a status queue attached).

Types from the repository's `proto` module (not part of src/: `DeviceRoute`,
`Packet`, payloads) are modelled from the spec where marked.
-/

namespace Tio

/-- Modelled from the spec: `Route` from the external packet model (`proto.rs`
is not under src/): an ordered sequence of small integers; `relative_route`
yields the suffix when the argument is within the scope and fails otherwise;
`absolute_route` prepends the scope. -/
structure DeviceRoute where
  segments : List Nat
deriving DecidableEq

/-- Modelled from the spec: `scope.relative_route(abs)` yields the suffix when
`abs` is inside the scope, and fails otherwise. -/
def DeviceRoute.relative_route (scope abs : DeviceRoute) : Option DeviceRoute :=
  if scope.segments <+: abs.segments then
    some ⟨abs.segments.drop scope.segments.length⟩
  else
    none

/-- Modelled from the spec: `scope.absolute_route(rel)` prepends the scope. -/
def DeviceRoute.absolute_route (scope rel : DeviceRoute) : DeviceRoute :=
  ⟨scope.segments ++ rel.segments⟩

def DeviceRoute.root : DeviceRoute := ⟨[]⟩

/-- Modelled from the spec: RPC method selector (name or numeric id). -/
inductive RpcMethod where
  | Name (s : String)
  | Id (n : Nat)
deriving DecidableEq

/-- Modelled from the spec: payload of an RPC request (`proto.rs`). -/
structure RpcRequestPayload where
  id : Nat
  method : RpcMethod
  arg : List Nat
deriving DecidableEq

/-- Modelled from the spec: payload of an RPC reply (`proto.rs`). -/
structure RpcReplyPayload where
  id : Nat
  reply : List Nat
deriving DecidableEq

/-- Modelled from the spec: RPC error codes; the proxy uses `Timeout`,
`Undefined` and `OutOfMemory`, other codes are collapsed into `Other`. -/
inductive RpcErrorCode where
  | Timeout
  | Undefined
  | OutOfMemory
  | Other (code : Nat)
deriving DecidableEq

/-- Modelled from the spec: payload of an RPC error (`proto.rs`). -/
structure RpcErrorPayload where
  id : Nat
  error : RpcErrorCode
  extra : List Nat
deriving DecidableEq

/-- Modelled from the spec: heartbeat payload, either a session id or raw
bytes (`proto.rs`). -/
inductive HeartbeatPayload where
  | Session (session : Nat)
  | Any (bytes : List Nat)
deriving DecidableEq

/-- Modelled from the spec: packet payload variants (`proto.rs`). Non-RPC,
non-stream, non-heartbeat payloads are collapsed into `OtherPayload`. -/
inductive Payload where
  | RpcRequest (req : RpcRequestPayload)
  | RpcReply (rep : RpcReplyPayload)
  | RpcError (err : RpcErrorPayload)
  | StreamData (data : List Nat)
  | Heartbeat (hb : HeartbeatPayload)
  | OtherPayload (bytes : List Nat)
deriving DecidableEq

/-- Modelled from the spec: `Packet = {payload, routing, ttl}` (`proto.rs`). -/
structure Packet where
  payload : Payload
  routing : DeviceRoute
  ttl : Nat
deriving DecidableEq

/-- Status events sent to the optional user channel (proxy.rs, `enum Event`).
Payload types owned by external modules (`proto::Error`, `RecvError`) are
dropped. -/
inductive Event where
  | SensorConnected
  | SensorDisconnected
  | SensorReconnected
  | FailedToConnect
  | FailedToReconnect
  | Exiting
  | ProtocolError
  | FatalError
  | NewClient (id : Nat)
  | RpcRemap (clientAndId : Nat × Nat) (wire : Nat)
  | RpcRestore (wire : Nat) (clientAndId : Nat × Nat)
  | RpcTimeout (wire : Nat)
  | ClientTerminated (id : Nat)
  | RootDeviceRestarted
  | AutoRateGaveUp
  | AutoRateQueried (rate : Nat)
  | AutoRateRpcError (code : RpcErrorCode)
  | AutoRateIncompatible (rate : Nat)
  | AutoRateCompatible (rate : Nat)
  | AutoRateWait
  | AutoRateSet (rate : Nat)
  | SetRate (rate : Nat)
  | SetRateFailed
  | NoData
deriving DecidableEq

/-! ### Association-list operations standing in for `HashMap` / `BTreeMap` -/

/-- Lookup in an association list (first match), standing in for
`HashMap::get` / `BTreeMap::get`. -/
def alookup {α : Type} : List (Nat × α) → Nat → Option α
  | [], _ => none
  | (k, v) :: rest, key => if k = key then some v else alookup rest key

/-- Removal of a key, standing in for `HashMap::remove` /
`BTreeMap::remove` (the removed value, when needed, is read off with
`alookup` first). -/
def aremove {α : Type} (l : List (Nat × α)) (key : Nat) : List (Nat × α) :=
  l.filter (fun kv => kv.1 ≠ key)

/-- In-place update of the value stored under a key, standing in for
mutation through `get_mut`. -/
def aupdate {α : Type} (l : List (Nat × α)) (key : Nat) (v : α) : List (Nat × α) :=
  l.map (fun kv => if kv.1 = key then (key, v) else kv)

/-- Insertion into the sorted deadline index, standing in for
`BTreeMap::insert` (keeps keys strictly ascending). -/
def btreeInsert (key : Nat) (v : List Nat) : List (Nat × List Nat) → List (Nat × List Nat)
  | [] => [(key, v)]
  | (k, w) :: rest =>
    if key < k then (key, v) :: (k, w) :: rest
    else if key = k then (key, v) :: rest
    else (k, w) :: btreeInsert key v rest

/-- `HashSet::insert` on a bucket modelled as a duplicate-free list. -/
def addWire (wire : Nat) (b : List Nat) : List Nat :=
  if wire ∈ b then b else b ++ [wire]

/-- `rpc_timeouts` update in `forward_to_device`: create an empty bucket for
the deadline if absent (`BTreeMap::insert`), then `HashSet::insert` the wire
id into it. -/
def timeoutsAdd (l : List (Nat × List Nat)) (key wire : Nat) : List (Nat × List Nat) :=
  let l' := if (alookup l key).isSome then l else btreeInsert key [] l
  l'.map (fun kv => if kv.1 = key then (kv.1, addWire wire kv.2) else kv)

/-- `for timeout in to_remove { rpc_timeouts.remove(&timeout) }` at the end of
`dispatch_rpc_timeouts`. -/
def removeKeys (ks : List Nat) (l : List (Nat × List Nat)) : List (Nat × List Nat) :=
  ks.foldl (fun acc t => acc.filter (fun kv => kv.1 ≠ t)) l

/-! ### Client record and scope-filtered send -/

/-- proxy.rs `struct ProxyClient`: the channel pair becomes the list of
packets currently queued towards the client (`tx`) with its bound
(`txCap`, 256 in the program); the inbound direction is external input to the
functions below and is not stored. -/
structure ProxyClient where
  tx : List Packet
  txCap : Nat
  rpc_timeout : Nat
  scope : DeviceRoute
  forward_data : Bool
  forward_nonrpc : Bool
deriving DecidableEq

/-- Outcome of `channel::Sender::try_send` on the bounded outbound queue. -/
inductive SendResult where
  | ok
  | full
deriving DecidableEq

/-- proxy.rs `ProxyClient::send` (lines 54-74): scope filter, forwarding
policy, then non-blocking send of the packet with rewritten routing. `ok`
covers both a successful enqueue and a silent drop; `full` is the
`TrySendError` outcome. -/
def ProxyClient.send (c : ProxyClient) (pkt : Packet) : ProxyClient × SendResult :=
  match c.scope.relative_route pkt.routing with
  | none => (c, .ok)
  | some scoped_route =>
    let pass : Bool :=
      match pkt.payload with
      | .RpcRequest _ | .RpcReply _ | .RpcError _ => true
      | .StreamData _ => c.forward_data
      | _ => c.forward_nonrpc
    if !pass then (c, .ok)
    else if c.tx.length < c.txCap then
      ({ c with tx := c.tx ++ [{ payload := pkt.payload, routing := scoped_route, ttl := pkt.ttl }] }, .ok)
    else
      (c, .full)

/-- proxy.rs `ProxyClient::recv` (lines 76-80): a packet taken off the
client's inbound queue has its routing made absolute. -/
def ProxyClient.recv (c : ProxyClient) (pkt : Packet) : Packet :=
  { pkt with routing := c.scope.absolute_route pkt.routing }

/-! ### Device state and proxy state -/

/-- proxy.rs `struct RpcMapEntry`. -/
structure RpcMapEntry where
  id : Nat
  client : Nat
  route : DeviceRoute
  timeout : Nat
deriving DecidableEq

/-- proxy.rs `enum RateChange`: states of the rate autonegotiation FSM. -/
inductive RateChange where
  | DoNothing
  | WaitingForSession
  | QueryDeviceRate
  | WaitingDeviceRate
  | SetDeviceRate
  | WaitingNewRate
  | RateChanged
  | GaveUp
deriving DecidableEq

/-- Modelled from the spec: the port's optional rate descriptor
`{target_bps, default_bps}` (the transport driver is external). -/
structure RateInfo where
  target_bps : Nat
  default_bps : Nat
deriving DecidableEq

/-- proxy.rs `struct ProxyDevice`. The external `tio_port` is modelled from
the spec by the list of packets accepted so far (`sent`), a flag saying
whether `send` currently succeeds (`send_ok`), a flag for the outcome of
`set_rate` (`set_rate_ok`) and the optional rate descriptor. -/
structure ProxyDevice where
  sent : List Packet
  send_ok : Bool
  set_rate_ok : Bool
  rate_info : Option RateInfo
  rate_change_state : RateChange
  last_rx : Nat
  last_session : Nat
deriving DecidableEq

/-- proxy.rs `struct Proxy` (the fields that are plain state; the channel
handles and configuration strings are external). `events` is the trace of
status events: it embeds `send_event` with a status queue attached. -/
structure Proxy where
  clients : List (Nat × ProxyClient)
  device : Option ProxyDevice
  next_client_id : Nat
  next_rpc_id : Nat
  rpc_map : List (Nat × RpcMapEntry)
  rpc_timeouts : List (Nat × List Nat)
  events : List Event
deriving DecidableEq

/-- proxy.rs `Proxy::send_event`. -/
def Proxy.send_event (p : Proxy) (e : Event) : Proxy :=
  { p with events := p.events ++ [e] }

/-- util.rs `PacketBuilder::new(routing).rpc_error(id, error)`:
an RPC error packet with empty extra data and ttl 0. -/
def PacketBuilder.rpc_error (routing : DeviceRoute) (id : Nat) (error : RpcErrorCode) : Packet :=
  { payload := .RpcError { id := id, error := error, extra := [] }, routing := routing, ttl := 0 }

/-! ### RPC remap table operations -/

/-- proxy.rs `Proxy::rpc_restore` (lines 238-252): remove the wire id from
the primary map; if present, remove it from its deadline bucket (pruning the
bucket when it empties), emit `RpcRestore`, and return the original id and
client. `none` models the `unwrap()` panic when the deadline bucket is
missing. -/
def Proxy.rpc_restore (p : Proxy) (wire_id : Nat) : Option (Proxy × Option (Nat × Nat)) :=
  match alookup p.rpc_map wire_id with
  | none => some (p, none)
  | some remap =>
    match alookup p.rpc_timeouts remap.timeout with
    | none => none
    | some ids =>
      let ids' := ids.erase wire_id
      let rpc_timeouts' :=
        if ids'.length = 0 then
          (p.rpc_timeouts).filter (fun kv => kv.1 ≠ remap.timeout)
        else
          aupdate p.rpc_timeouts remap.timeout ids'
      some
        (Proxy.send_event
          { p with
            rpc_map := aremove p.rpc_map wire_id
            rpc_timeouts := rpc_timeouts' }
          (.RpcRestore wire_id (remap.client, remap.id)),
         some (remap.id, remap.client))

/-- proxy.rs `Proxy::forward_to_device` (lines 255-307), at current time
`now`. The `Ok(())` outcome is `some (p, none)`; the `Err(packet)` outcome
(packet to send back to the client) is `some (p, some pkt)`; `none` models
the `clients.get(&client_id).unwrap()` panic for an unregistered non-zero
client id. `next_rpc_id += 1` wraps as a `u16`. -/
def Proxy.forward_to_device (p : Proxy) (now : Nat) (pkt : Packet) (client_id : Nat) :
    Option (Proxy × Option Packet) :=
  match pkt.payload with
  | .RpcRequest req =>
    let wire_id := p.next_rpc_id
    let p1 : Proxy := { p with next_rpc_id := (p.next_rpc_id + 1) % 65536 }
    if (alookup p1.rpc_map wire_id).isSome then
      some (p1, some (PacketBuilder.rpc_error pkt.routing req.id .OutOfMemory))
    else
      match (if client_id ≠ 0 then (alookup p1.clients client_id).map (fun c => c.rpc_timeout)
             else some 1000) with
      | none => none
      | some dur =>
        let timeout := now + dur
        let entry : RpcMapEntry :=
          { id := req.id, client := client_id, route := pkt.routing, timeout := timeout }
        let p2 : Proxy := { p1 with rpc_map := (wire_id, entry) :: p1.rpc_map }
        let p3 := p2.send_event (.RpcRemap (client_id, req.id) wire_id)
        let pkt' : Packet := { pkt with payload := .RpcRequest { req with id := wire_id } }
        match p3.device with
        | some dev =>
          if dev.send_ok then
            some
              ({ p3 with
                  device := some { dev with sent := dev.sent ++ [pkt'] }
                  rpc_timeouts := timeoutsAdd p3.rpc_timeouts timeout wire_id },
               none)
          else
            some ({ p3 with rpc_map := aremove p3.rpc_map wire_id },
                  some (PacketBuilder.rpc_error entry.route entry.id .Undefined))
        | none =>
          some ({ p3 with rpc_map := aremove p3.rpc_map wire_id },
                some (PacketBuilder.rpc_error entry.route entry.id .Undefined))
  | _ =>
    match p.device with
    | some dev =>
      if dev.send_ok then
        some ({ p with device := some { dev with sent := dev.sent ++ [pkt] } }, none)
      else
        some (p, none)
    | none => some (p, none)

/-- Inner loop of proxy.rs `Proxy::dispatch_rpc_timeouts` (lines 316-329):
process one deadline bucket: emit `RpcTimeout`, remove the entry from the
primary map (`unwrap()` panic when absent: `none`), and send the synthetic
RPC error to the originating client when it is still registered
(`unwrap()` panic when the outbound queue is full: `none`). -/
def Proxy.dispatchBucket (p : Proxy) (error : RpcErrorCode) : List Nat → Option Proxy
  | [] => some p
  | wire :: rest =>
    let pe := p.send_event (.RpcTimeout wire)
    match alookup pe.rpc_map wire with
    | none => none
    | some remap =>
      let p1 : Proxy := { pe with rpc_map := aremove pe.rpc_map wire }
      match alookup p1.clients remap.client with
      | none => Proxy.dispatchBucket p1 error rest
      | some c =>
        match c.send (PacketBuilder.rpc_error remap.route remap.id error) with
        | (_, .full) => none
        | (c', .ok) =>
          Proxy.dispatchBucket
            { p1 with clients := aupdate p1.clients remap.client c' } error rest

/-- Outer loop of proxy.rs `Proxy::dispatch_rpc_timeouts` (lines 310-333):
walk the deadline index in ascending key order, stopping at the first
deadline `≥ cutoff`; collect processed keys in `acc` and remove them from the
index at the end. -/
def Proxy.dispatchGo (p : Proxy) (cutoff : Nat) (error : RpcErrorCode)
    (acc : List Nat) : List (Nat × List Nat) → Option Proxy
  | [] => some { p with rpc_timeouts := removeKeys acc p.rpc_timeouts }
  | (t, ids) :: rest =>
    if cutoff ≤ t then
      some { p with rpc_timeouts := removeKeys acc p.rpc_timeouts }
    else
      match Proxy.dispatchBucket p error ids with
      | none => none
      | some p1 => Proxy.dispatchGo p1 cutoff error (acc ++ [t]) rest

/-- proxy.rs `Proxy::dispatch_rpc_timeouts` (lines 309-334). -/
def Proxy.dispatch_rpc_timeouts (p : Proxy) (cutoff : Nat) (error : RpcErrorCode) :
    Option Proxy :=
  Proxy.dispatchGo p cutoff error [] p.rpc_timeouts

/-- proxy.rs `Proxy::process_rpc_timeouts` (lines 336-344), at current time
`now`: sweep with error code `Timeout`, then report the duration until the
next deadline plus 1 ms of slack, or 60 s when the index is empty. -/
def Proxy.process_rpc_timeouts (p : Proxy) (now : Nat) : Option (Proxy × Nat) :=
  match p.dispatch_rpc_timeouts now .Timeout with
  | none => none
  | some p1 =>
    match p1.rpc_timeouts with
    | [] => some (p1, 60000)
    | (t, _) :: _ => some (p1, (t - now) + 1)

/-- proxy.rs `Proxy::cancel_active_rpcs` (lines 459-464): sweep everything up
to 1000 s in the future with error code `Undefined`. -/
def Proxy.cancel_active_rpcs (p : Proxy) (now : Nat) : Option Proxy :=
  p.dispatch_rpc_timeouts (now + 1000000) .Undefined

/-! ### Internal RPCs (rate autonegotiation replies) -/

/-- `u32::from_le_bytes` on four bytes (each truncated to `u8`). -/
def u32_from_le (b0 b1 b2 b3 : Nat) : Nat :=
  b0 % 256 + 256 * (b1 % 256) + 65536 * (b2 % 256) + 16777216 * (b3 % 256)

/-- The f64 test `(((target as f64) - (value as f64)) / (value as f64)).abs()
> 0.015` from `Proxy::internal_rpc_reply`, embedded exactly as integer
arithmetic.  For `u32` operands the subtraction and the absolute value are
exact in f64, so the computed error is `fl(d / value)` with
`d = |target - value|`.  The f64 nearest `0.015` is `c = 8646911284551352 *
2 ^ (-59)` (which is below `3/200`), and since no fraction `d / value` with
`value < 2 ^ 32` can hit the rounding boundary `(2 * 8646911284551352 + 1) *
2 ^ (-60)` exactly, monotonicity of rounding gives
`fl(d / value) > c  ↔  2 ^ 60 * d > 17293822569102705 * value`. -/
def rateErrorExceeds (target value : Nat) : Bool :=
  1152921504606846976 * (max target value - min target value) > 17293822569102705 * value

/-- proxy.rs `Proxy::internal_rpc_reply` (lines 350-391).  `none` models the
panics: the unguarded slice `rep.reply[0..4]` when the reply payload is
shorter than 4 bytes, and `rate_info().unwrap()` when the port has no rate
descriptor. -/
def Proxy.internal_rpc_reply (p : Proxy) (rep : RpcReplyPayload) : Option Proxy :=
  match rep.reply with
  | b0 :: b1 :: b2 :: b3 :: _ =>
    let value := u32_from_le b0 b1 b2 b3
    match p.device with
    | none => some p
    | some dev =>
      match dev.rate_info with
      | none => none
      | some ri =>
        let target := ri.target_bps
        match dev.rate_change_state with
        | .WaitingDeviceRate =>
          if value = 0 then
            some { ((p.send_event (.AutoRateIncompatible 0)).send_event .AutoRateGaveUp) with
                    device := some { dev with rate_change_state := .GaveUp } }
          else if rateErrorExceeds target value then
            some { ((p.send_event (.AutoRateIncompatible value)).send_event .AutoRateGaveUp) with
                    device := some { dev with rate_change_state := .GaveUp } }
          else
            some { (p.send_event (.AutoRateCompatible value)) with
                    device := some { dev with rate_change_state := .SetDeviceRate } }
        | .WaitingNewRate =>
          let pe := p.send_event (.SetRate target)
          if dev.set_rate_ok then
            some { pe with device := some { dev with rate_change_state := .RateChanged } }
          else
            some { (pe.send_event .AutoRateGaveUp) with
                    device := some { dev with rate_change_state := .GaveUp } }
        | state =>
          some { p with device := some { dev with rate_change_state := state } }
  | _ => none

/-- proxy.rs `Proxy::internal_rpc_error` (lines 393-400). -/
def Proxy.internal_rpc_error (p : Proxy) (err : RpcErrorPayload) : Proxy :=
  let pe := p.send_event (.AutoRateRpcError err.error)
  match pe.device with
  | some dev =>
    ({ pe with device := some { dev with rate_change_state := .GaveUp } }).send_event
      .AutoRateGaveUp
  | none => pe

/-! ### Main-loop packet handling -/

/-- Fan-out of a device-originated non-RPC packet over the client registry
(proxy.rs `Proxy::run`, lines 614-619): `client.send(&pkt).unwrap()` for every
client, in registry order; `none` models the `unwrap()` panic when some
client's outbound queue is full and the packet passes its scope and policy
filters. -/
def clientsSendAll (pkt : Packet) : List (Nat × ProxyClient) → Option (List (Nat × ProxyClient))
  | [] => some []
  | (id, c) :: rest =>
    match c.send pkt with
    | (_, .full) => none
    | (c', .ok) => (clientsSendAll pkt rest).map (fun cs => (id, c') :: cs)

/-- Handling of one decoded packet from the device's receive queue (proxy.rs
`Proxy::run`, lines 569-620): RPC replies and errors are restored through the
remap table and delivered to the originating client (or the internal handlers
for client 0); every other payload is fanned out to all clients.  `none`
models the panics of `rpc_restore`, of `client.send(..).unwrap()` and of the
internal reply handler. -/
def Proxy.handle_device_packet (p : Proxy) (pkt : Packet) : Option Proxy :=
  match pkt.payload with
  | .RpcReply rep =>
    match p.rpc_restore rep.id with
    | none => none
    | some (p1, none) => some p1
    | some (p1, some (original_id, client_id)) =>
      match alookup p1.clients client_id with
      | some c =>
        match c.send { pkt with payload := .RpcReply { rep with id := original_id } } with
        | (_, .full) => none
        | (c', .ok) => some { p1 with clients := aupdate p1.clients client_id c' }
      | none =>
        if client_id = 0 then p1.internal_rpc_reply { rep with id := original_id }
        else some p1
  | .RpcError err =>
    match p.rpc_restore err.id with
    | none => none
    | some (p1, none) => some p1
    | some (p1, some (original_id, client_id)) =>
      match alookup p1.clients client_id with
      | some c =>
        match c.send { pkt with payload := .RpcError { err with id := original_id } } with
        | (_, .full) => none
        | (c', .ok) => some { p1 with clients := aupdate p1.clients client_id c' }
      | none =>
        if client_id = 0 then some (p1.internal_rpc_error { err with id := original_id })
        else some p1
  | _ =>
    match clientsSendAll pkt p.clients with
    | none => none
    | some cs => some { p with clients := cs }

/-- Handling of one packet drained from a client's inbound queue (proxy.rs
`Proxy::run`, lines 530-535): forward to the device; when that returns a
packet to bounce back, deliver it to the same client's outbound queue
(`clients.get(&client_id).unwrap().send(&rpkt).unwrap()`; both unwraps are
`none`). -/
def Proxy.handle_client_packet (p : Proxy) (now : Nat) (client_id : Nat) (pkt : Packet) :
    Option Proxy :=
  match p.forward_to_device now pkt client_id with
  | none => none
  | some (p1, none) => some p1
  | some (p1, some rpkt) =>
    match alookup p1.clients client_id with
    | none => none
    | some c =>
      match c.send rpkt with
      | (_, .full) => none
      | (c', .ok) => some { p1 with clients := aupdate p1.clients client_id c' }

/-! ### Value codec from `twinleaf/src/tio/util.rs` -/

/-- `$primitive::to_le_bytes` for a `w`-byte unsigned primitive
(util.rs `make_tio_rpc_traits`): little-endian byte list. -/
def toLeBytes : Nat → Nat → List Nat
  | 0, _ => []
  | w + 1, v => v % 256 :: toLeBytes w (v / 256)

/-- `$primitive::from_le_bytes` for an unsigned primitive: read a
little-endian byte list. -/
def fromLeBytes : List Nat → Nat
  | [] => 0
  | b :: bs => b % 256 + 256 * fromLeBytes bs

/-- util.rs `TioRpcRequestable::to_request` for a `w`-byte unsigned
primitive: `self.to_le_bytes().to_vec()`. -/
def to_request_u (w v : Nat) : List Nat :=
  toLeBytes w v

/-- util.rs `TioRpcReplyable::from_reply_prefix` for a `w`-byte unsigned
primitive: fail when the buffer is shorter than the primitive, otherwise
decode the first `w` bytes and return the rest. -/
def from_reply_prefix_u (w : Nat) (reply : List Nat) : Option (Nat × List Nat) :=
  if reply.length < w then none
  else some (fromLeBytes (reply.take w), reply.drop w)

/-- util.rs `TioRpcReplyable::from_reply` (lines 80-87): decode a prefix and
require that nothing trails it. -/
def from_reply_u (w : Nat) (reply : List Nat) : Option Nat :=
  match from_reply_prefix_u w reply with
  | none => none
  | some (ret, rest) => if rest.length = 0 then some ret else none

/-- util.rs `TioRpcRequestable::to_request` for a `w`-byte signed primitive:
two's-complement little-endian bytes of `self.to_le_bytes()`. -/
def to_request_i (w : Nat) (v : Int) : List Nat :=
  toLeBytes w (v % ((2 : Int) ^ (8 * w))).toNat

/-- The value of a `w`-byte signed primitive with unsigned representation
`n` (two's complement): `$primitive::from_le_bytes`. -/
def intOfBits (w n : Nat) : Int :=
  if n < 2 ^ (8 * w - 1) then (n : Int) else (n : Int) - (2 : Int) ^ (8 * w)

/-- util.rs `TioRpcReplyable::from_reply_prefix` for a `w`-byte signed
primitive. -/
def from_reply_prefix_i (w : Nat) (reply : List Nat) : Option (Int × List Nat) :=
  if reply.length < w then none
  else some (intOfBits w (fromLeBytes (reply.take w)), reply.drop w)

/-- util.rs `TioRpcReplyable::from_reply` for a `w`-byte signed primitive. -/
def from_reply_i (w : Nat) (reply : List Nat) : Option Int :=
  match from_reply_prefix_i w reply with
  | none => none
  | some (ret, rest) => if rest.length = 0 then some ret else none

/-! ### Well-formedness of the remap table -/

/-- The deadline bucket stored under `t`, as a list (empty when absent). -/
def Proxy.bucketOf (p : Proxy) (t : Nat) : List Nat :=
  (alookup p.rpc_timeouts t).getD []

/-- The deadline recorded for a wire id in the primary map, if any. -/
def Proxy.entryTimeout (p : Proxy) (w : Nat) : Option Nat :=
  (alookup p.rpc_map w).map (fun e => e.timeout)

/-- The two-structure invariant of the remap table (spec §3 and §8): a wire
id is a key of the primary map iff it is a member of the deadline-index set
stored under that entry's deadline, and the deadline index contains no empty
set.  Bundled with the representation well-formedness of the embedding:
primary-map keys are unique, the deadline index is strictly sorted and its
buckets are duplicate-free. -/
def Proxy.rpcWF (p : Proxy) : Prop :=
  (p.rpc_map.map Prod.fst).Nodup ∧
  p.rpc_timeouts.Pairwise (fun a b => a.1 < b.1) ∧
  (∀ tb ∈ p.rpc_timeouts, tb.2.Nodup) ∧
  (∀ kv ∈ p.rpc_map, kv.1 ∈ p.bucketOf kv.2.timeout) ∧
  (∀ tb ∈ p.rpc_timeouts, tb.2 ≠ [] ∧ ∀ w ∈ tb.2, p.entryTimeout w = some tb.1)

instance (p : Proxy) : Decidable p.rpcWF := by
  unfold Proxy.rpcWF
  infer_instance

/-! ### Lemmas about the association-list operations -/


/-! ### Lemmas about the association-list operations -/

theorem alookup_cons {α : Type} (k' : Nat) (v : α) (l : List (Nat × α)) (k : Nat) :
    alookup ((k', v) :: l) k = if k' = k then some v else alookup l k := rfl

theorem alookup_eq_none_iff {α : Type} (l : List (Nat × α)) (k : Nat) :
    alookup l k = none ↔ k ∉ l.map Prod.fst := by
  induction l with
  | nil => simp [alookup]
  | cons kv rest ih =>
    obtain ⟨k', v⟩ := kv
    by_cases h : k' = k
    · subst h
      simp [alookup_cons]
    · rw [alookup_cons, if_neg h, List.map_cons]
      simp only [List.mem_cons, ih]
      constructor
      · rintro hn (h1 | h1)
        · exact h h1.symm
        · exact hn h1
      · intro hn h1
        exact hn (Or.inr h1)

theorem mem_of_alookup {α : Type} {l : List (Nat × α)} {k : Nat} {v : α}
    (h : alookup l k = some v) : (k, v) ∈ l := by
  induction l with
  | nil => simp [alookup] at h
  | cons kv rest ih =>
    obtain ⟨k', v'⟩ := kv
    by_cases hk : k' = k
    · subst hk
      rw [alookup_cons, if_pos rfl] at h
      injection h with h
      subst h
      exact List.mem_cons_self _ _
    · rw [alookup_cons, if_neg hk] at h
      exact List.mem_cons_of_mem _ (ih h)

theorem alookup_of_mem_nodup {α : Type} {l : List (Nat × α)} {k : Nat} {v : α}
    (hnd : (l.map Prod.fst).Nodup) (hmem : (k, v) ∈ l) : alookup l k = some v := by
  induction l with
  | nil => simp at hmem
  | cons kv rest ih =>
    obtain ⟨k', v'⟩ := kv
    simp only [List.map_cons, List.nodup_cons] at hnd
    rcases List.mem_cons.mp hmem with h | h
    · rw [← h, alookup_cons, if_pos rfl]
    · have hk : ¬ k' = k := by
        rintro rfl
        exact hnd.1 (List.mem_map.mpr ⟨(k', v), h, rfl⟩)
      rw [alookup_cons, if_neg hk]
      exact ih hnd.2 h

theorem alookup_aremove {α : Type} (l : List (Nat × α)) (key k : Nat) :
    alookup (aremove l key) k = if k = key then none else alookup l k := by
  induction l with
  | nil => by_cases h : k = key <;> simp [aremove, alookup, h]
  | cons kv rest ih =>
    obtain ⟨k', v⟩ := kv
    by_cases hk : k' = key
    · have hstep : aremove ((k', v) :: rest) key = aremove rest key := by
        simp [aremove, List.filter_cons, hk]
      rw [hstep, ih]
      by_cases hkk : k = key
      · simp [hkk]
      · have hne : ¬ k' = k := by
          rw [hk]
          exact fun hh => hkk hh.symm
        rw [if_neg hkk, alookup_cons, if_neg hne, if_neg hkk]
    · have hstep : aremove ((k', v) :: rest) key = (k', v) :: aremove rest key := by
        simp [aremove, List.filter_cons, hk]
      rw [hstep, alookup_cons, alookup_cons, ih]
      by_cases hkk : k' = k
      · have hne : ¬ k = key := by
          rw [← hkk]
          exact hk
        rw [if_pos hkk, if_neg hne, if_pos hkk]
      · rw [if_neg hkk, if_neg hkk]

theorem aremove_sublist {α : Type} (l : List (Nat × α)) (key : Nat) :
    (aremove l key).Sublist l :=
  List.filter_sublist l

theorem alookup_eq_none_of_sublist {α : Type} {l' l : List (Nat × α)} {k : Nat}
    (hs : l'.Sublist l) (h : alookup l k = none) : alookup l' k = none := by
  rw [alookup_eq_none_iff] at h ⊢
  exact fun hm => h ((hs.map Prod.fst).mem hm)

theorem alookup_aupdate {α : Type} (l : List (Nat × α)) (key : Nat) (v : α) (k : Nat) :
    alookup (aupdate l key v) k =
      if k = key then (alookup l key).map (fun _ => v) else alookup l k := by
  induction l with
  | nil => by_cases h : k = key <;> simp [aupdate, alookup, h]
  | cons kv rest ih =>
    obtain ⟨k', v'⟩ := kv
    by_cases hk : k' = key
    · subst hk
      have hstep : aupdate ((k', v') :: rest) k' v = (k', v) :: aupdate rest k' v := by
        simp [aupdate]
      rw [hstep, alookup_cons, ih]
      by_cases hkk : k' = k
      · subst hkk
        rw [if_pos rfl, if_pos rfl, alookup_cons, if_pos rfl]
        simp
      · have hne : ¬ k = k' := fun hh => hkk hh.symm
        rw [if_neg hkk, if_neg hne, if_neg hne, alookup_cons, if_neg hkk]
    · have hstep : aupdate ((k', v') :: rest) key v = (k', v') :: aupdate rest key v := by
        simp [aupdate, hk]
      rw [hstep, alookup_cons, ih]
      by_cases hkk : k' = k
      · have hne : ¬ k = key := by
          rw [← hkk]
          exact hk
        rw [if_pos hkk, if_neg hne, alookup_cons, if_pos hkk]
      · rw [if_neg hkk]
        by_cases hq : k = key
        · rw [if_pos hq, if_pos hq, alookup_cons, if_neg hk]
        · rw [if_neg hq, if_neg hq, alookup_cons, if_neg hkk]

theorem aupdate_keys {α : Type} (l : List (Nat × α)) (key : Nat) (v : α) :
    (aupdate l key v).map Prod.fst = l.map Prod.fst := by
  induction l with
  | nil => rfl
  | cons kv rest ih =>
    obtain ⟨k', v'⟩ := kv
    by_cases hk : k' = key
    · subst hk
      have hstep : aupdate ((k', v') :: rest) k' v = (k', v) :: aupdate rest k' v := by
        simp [aupdate]
      rw [hstep, List.map_cons, List.map_cons, ih]
    · have hstep : aupdate ((k', v') :: rest) key v = (k', v') :: aupdate rest key v := by
        simp [aupdate, hk]
      rw [hstep, List.map_cons, List.map_cons, ih]

theorem alookup_btreeInsert (key : Nat) (v : List Nat) (l : List (Nat × List Nat)) (k : Nat) :
    alookup (btreeInsert key v l) k = if key = k then some v else alookup l k := by
  induction l with
  | nil => by_cases h : key = k <;> simp [btreeInsert, alookup, h]
  | cons kv rest ih =>
    obtain ⟨k', v'⟩ := kv
    by_cases h1 : key < k'
    · rw [show btreeInsert key v ((k', v') :: rest) = (key, v) :: (k', v') :: rest from by
        simp [btreeInsert, h1]]
      rw [alookup_cons]
    · by_cases h2 : key = k'
      · rw [show btreeInsert key v ((k', v') :: rest) = (key, v) :: rest from by
          simp [btreeInsert, h1, h2]]
        rw [alookup_cons, alookup_cons]
        by_cases hq : key = k
        · simp [hq]
        · have : ¬ k' = k := by omega
          simp [hq, this]
      · rw [show btreeInsert key v ((k', v') :: rest) = (k', v') :: btreeInsert key v rest from by
          simp [btreeInsert, h1, h2]]
        rw [alookup_cons, ih, alookup_cons]
        by_cases hq : k' = k
        · have hne : ¬ key = k := by omega
          simp [hq, hne]
        · simp [hq]

theorem mem_btreeInsert {key : Nat} {v : List Nat} {l : List (Nat × List Nat)}
    {kv : Nat × List Nat} (h : kv ∈ btreeInsert key v l) : kv = (key, v) ∨ kv ∈ l := by
  induction l with
  | nil =>
    simp [btreeInsert] at h
    exact Or.inl h
  | cons hd rest ih =>
    obtain ⟨k', v'⟩ := hd
    by_cases h1 : key < k'
    · rw [show btreeInsert key v ((k', v') :: rest) = (key, v) :: (k', v') :: rest from by
        simp [btreeInsert, h1]] at h
      rcases List.mem_cons.mp h with h | h
      · exact Or.inl h
      · exact Or.inr h
    · by_cases h2 : key = k'
      · rw [show btreeInsert key v ((k', v') :: rest) = (key, v) :: rest from by
          simp [btreeInsert, h1, h2]] at h
        rcases List.mem_cons.mp h with h | h
        · exact Or.inl h
        · exact Or.inr (List.mem_cons_of_mem _ h)
      · rw [show btreeInsert key v ((k', v') :: rest) = (k', v') :: btreeInsert key v rest from by
          simp [btreeInsert, h1, h2]] at h
        rcases List.mem_cons.mp h with h | h
        · exact Or.inr (by simp [h])
        · rcases ih h with h | h
          · exact Or.inl h
          · exact Or.inr (List.mem_cons_of_mem _ h)

theorem btreeInsert_sorted {key : Nat} {v : List Nat} {l : List (Nat × List Nat)}
    (hs : l.Pairwise (fun a b => a.1 < b.1)) :
    (btreeInsert key v l).Pairwise (fun a b => a.1 < b.1) := by
  induction l with
  | nil => simp [btreeInsert]
  | cons hd rest ih =>
    obtain ⟨k', v'⟩ := hd
    rw [List.pairwise_cons] at hs
    by_cases h1 : key < k'
    · rw [show btreeInsert key v ((k', v') :: rest) = (key, v) :: (k', v') :: rest from by
        simp [btreeInsert, h1]]
      rw [List.pairwise_cons]
      constructor
      · intro b hb
        rcases List.mem_cons.mp hb with h | h
        · rw [h]
          exact h1
        · exact lt_trans h1 (hs.1 b h)
      · exact List.Pairwise.cons hs.1 hs.2
    · by_cases h2 : key = k'
      · rw [show btreeInsert key v ((k', v') :: rest) = (key, v) :: rest from by
          simp [btreeInsert, h1, h2]]
        rw [List.pairwise_cons]
        refine ⟨fun b hb => ?_, hs.2⟩
        rw [show key = k' from h2]
        exact hs.1 b hb
      · rw [show btreeInsert key v ((k', v') :: rest) = (k', v') :: btreeInsert key v rest from by
          simp [btreeInsert, h1, h2]]
        rw [List.pairwise_cons]
        refine ⟨fun b hb => ?_, ih hs.2⟩
        rcases mem_btreeInsert hb with h | h
        · rw [h]
          show k' < key
          omega
        · exact hs.1 b h

theorem mem_addWire {wire x : Nat} {b : List Nat} :
    x ∈ addWire wire b ↔ x = wire ∨ x ∈ b := by
  unfold addWire
  by_cases h : wire ∈ b
  · simp only [if_pos h]
    constructor
    · exact Or.inr
    · rintro (rfl | hx)
      · exact h
      · exact hx
  · simp [if_neg h, or_comm]

theorem addWire_nodup {wire : Nat} {b : List Nat} (h : b.Nodup) : (addWire wire b).Nodup := by
  unfold addWire
  by_cases hw : wire ∈ b
  · simpa [hw] using h
  · rw [if_neg hw]
    refine List.Nodup.append h (List.nodup_singleton wire) ?_
    intro a ha hb
    rw [List.mem_singleton] at hb
    subst hb
    exact hw ha

theorem addWire_ne_nil {wire : Nat} {b : List Nat} : addWire wire b ≠ [] := by
  unfold addWire
  by_cases hw : wire ∈ b
  · rw [if_pos hw]
    rintro rfl
    simp at hw
  · rw [if_neg hw]
    simp

theorem alookup_mapAt (g : List Nat → List Nat) (key : Nat) (l : List (Nat × List Nat))
    (k : Nat) :
    alookup (l.map (fun kv => if kv.1 = key then (kv.1, g kv.2) else kv)) k =
      if key = k then (alookup l key).map g else alookup l k := by
  induction l with
  | nil => by_cases h : key = k <;> simp [alookup, h]
  | cons kv rest ih =>
    obtain ⟨k', v'⟩ := kv
    by_cases hk : k' = key
    · subst hk
      rw [show ((k', v') :: rest).map (fun kv => if kv.1 = k' then (kv.1, g kv.2) else kv) =
          (k', g v') :: rest.map (fun kv => if kv.1 = k' then (kv.1, g kv.2) else kv) from by
        simp]
      rw [alookup_cons, ih, alookup_cons]
      by_cases hq : k' = k
      · simp [hq]
      · simp only [if_neg hq]
        rw [alookup_cons, if_neg hq]
    · rw [show ((k', v') :: rest).map (fun kv => if kv.1 = key then (kv.1, g kv.2) else kv) =
          (k', v') :: rest.map (fun kv => if kv.1 = key then (kv.1, g kv.2) else kv) from by
        simp [hk]]
      rw [alookup_cons, ih]
      by_cases hq : k' = k
      · have hne : ¬ key = k := by omega
        simp [hq, hne, alookup_cons]
      · simp [hq, hk, alookup_cons]

theorem alookup_timeoutsAdd (l : List (Nat × List Nat)) (key wire : Nat) (k : Nat) :
    alookup (timeoutsAdd l key wire) k =
      if key = k then some (addWire wire ((alookup l key).getD [])) else alookup l k := by
  simp only [timeoutsAdd]
  rw [alookup_mapAt (addWire wire) key]
  cases hl : alookup l key with
  | some b =>
    simp only [hl, Option.isSome_some, if_true]
    by_cases hkk : key = k <;> simp [hkk, hl]
  | none =>
    simp only [hl, Option.isSome_none, Bool.false_eq_true, if_false]
    by_cases hkk : key = k
    · simp [alookup_btreeInsert, hkk, hl]
    · simp [alookup_btreeInsert, hkk, hl]

theorem mem_timeoutsAdd {l : List (Nat × List Nat)} {key wire : Nat}
    {kv : Nat × List Nat} (h : kv ∈ timeoutsAdd l key wire) :
    (∃ b, kv = (key, addWire wire b) ∧ ((key, b) ∈ l ∨ b = [])) ∨
      (kv ∈ l ∧ kv.1 ≠ key) := by
  simp only [timeoutsAdd] at h
  rw [List.mem_map] at h
  obtain ⟨kv0, hkv0, hmap⟩ := h
  have hl' : kv0 ∈ l ∨ kv0 = (key, ([] : List Nat)) := by
    by_cases hs : (alookup l key).isSome
    · rw [if_pos hs] at hkv0
      exact Or.inl hkv0
    · rw [if_neg hs] at hkv0
      rcases mem_btreeInsert hkv0 with h | h
      · exact Or.inr h
      · exact Or.inl h
  by_cases hq : kv0.1 = key
  · left
    refine ⟨kv0.2, ?_, ?_⟩
    · rw [← hmap, if_pos hq, hq]
    · rcases hl' with h | h
      · left
        rw [← hq]
        exact h
      · right
        rw [h]
  · right
    rw [if_neg hq] at hmap
    subst hmap
    rcases hl' with h | h
    · exact ⟨h, hq⟩
    · rw [h] at hq
      simp at hq

theorem timeoutsAdd_sorted {l : List (Nat × List Nat)} {key wire : Nat}
    (hs : l.Pairwise (fun a b => a.1 < b.1)) :
    (timeoutsAdd l key wire).Pairwise (fun a b => a.1 < b.1) := by
  simp only [timeoutsAdd]
  have hs' : (if (alookup l key).isSome then l else btreeInsert key [] l).Pairwise
      (fun a b => a.1 < b.1) := by
    by_cases h : (alookup l key).isSome
    · rwa [if_pos h]
    · rw [if_neg h]
      exact btreeInsert_sorted hs
  rw [List.pairwise_map]
  refine hs'.imp ?_
  intro a b hab
  by_cases ha : a.1 = key <;> by_cases hb : b.1 = key <;>
    simp only [if_pos, if_neg, ha, hb, ite_true, ite_false] <;> simpa [ha, hb] using hab

theorem alookup_removeKeys (ks : List Nat) (l : List (Nat × List Nat)) (k : Nat) :
    alookup (removeKeys ks l) k = if k ∈ ks then none else alookup l k := by
  induction ks generalizing l with
  | nil => simp [removeKeys]
  | cons t ks ih =>
    have hstep : removeKeys (t :: ks) l = removeKeys ks (l.filter (fun kv => kv.1 ≠ t)) := rfl
    rw [hstep, ih]
    have harem : l.filter (fun kv => kv.1 ≠ t) = aremove l t := rfl
    rw [harem, alookup_aremove]
    by_cases h1 : k ∈ ks <;> by_cases h2 : k = t <;> simp [h1, h2]

theorem removeKeys_sublist (ks : List Nat) (l : List (Nat × List Nat)) :
    (removeKeys ks l).Sublist l := by
  induction ks generalizing l with
  | nil => simp [removeKeys]
  | cons t ks ih =>
    have hstep : removeKeys (t :: ks) l = removeKeys ks (l.filter (fun kv => kv.1 ≠ t)) := rfl
    rw [hstep]
    exact (ih _).trans (List.filter_sublist l)

theorem mem_removeKeys {ks : List Nat} {l : List (Nat × List Nat)} {kv : Nat × List Nat} :
    kv ∈ removeKeys ks l ↔ kv ∈ l ∧ kv.1 ∉ ks := by
  induction ks generalizing l with
  | nil => simp [removeKeys]
  | cons t ks ih =>
    have hstep : removeKeys (t :: ks) l = removeKeys ks (l.filter (fun kv => kv.1 ≠ t)) := rfl
    rw [hstep, ih]
    simp only [List.mem_filter, List.mem_cons, decide_eq_true_eq]
    constructor
    · rintro ⟨⟨h1, h2⟩, h3⟩
      refine ⟨h1, ?_⟩
      rintro (h | h)
      · exact h2 h
      · exact h3 h
    · rintro ⟨h1, h2⟩
      exact ⟨⟨h1, fun h => h2 (Or.inl h)⟩, fun h => h2 (Or.inr h)⟩

/-! ### How a client record can change while the proxy runs: only its queue
grows; scope, policy flags, capacity and timeout are never written. -/

def clientEvolves (c c' : ProxyClient) : Prop :=
  c'.txCap = c.txCap ∧ c'.rpc_timeout = c.rpc_timeout ∧ c'.scope = c.scope ∧
  c'.forward_data = c.forward_data ∧ c'.forward_nonrpc = c.forward_nonrpc ∧
  ∃ suf, c'.tx = c.tx ++ suf

theorem clientEvolves_refl (c : ProxyClient) : clientEvolves c c :=
  ⟨rfl, rfl, rfl, rfl, rfl, [], by simp⟩

theorem clientEvolves_trans {a b c : ProxyClient} (h1 : clientEvolves a b)
    (h2 : clientEvolves b c) : clientEvolves a c := by
  obtain ⟨e1, e2, e3, e4, e5, s1, hs1⟩ := h1
  obtain ⟨f1, f2, f3, f4, f5, s2, hs2⟩ := h2
  refine ⟨f1.trans e1, f2.trans e2, f3.trans e3, f4.trans e4, f5.trans e5, s1 ++ s2, ?_⟩
  rw [hs2, hs1, List.append_assoc]

theorem send_fst_evolves (c : ProxyClient) (pkt : Packet) : clientEvolves c (c.send pkt).1 := by
  unfold ProxyClient.send
  cases c.scope.relative_route pkt.routing with
  | none => exact clientEvolves_refl c
  | some r =>
    simp only
    split
    · exact clientEvolves_refl c
    · split
      · exact ⟨rfl, rfl, rfl, rfl, rfl, _, rfl⟩
      · exact clientEvolves_refl c

def clientsEvolve (cs cs' : List (Nat × ProxyClient)) : Prop :=
  (∀ cid, alookup cs cid = none → alookup cs' cid = none) ∧
  (∀ cid c, alookup cs cid = some c → ∃ c', alookup cs' cid = some c' ∧ clientEvolves c c')

theorem clientsEvolve_refl (cs : List (Nat × ProxyClient)) : clientsEvolve cs cs :=
  ⟨fun _ h => h, fun _ c h => ⟨c, h, clientEvolves_refl c⟩⟩

theorem clientsEvolve_trans {a b c : List (Nat × ProxyClient)} (h1 : clientsEvolve a b)
    (h2 : clientsEvolve b c) : clientsEvolve a c := by
  refine ⟨fun cid h => h2.1 cid (h1.1 cid h), fun cid c0 h => ?_⟩
  obtain ⟨c1, hc1, he1⟩ := h1.2 cid c0 h
  obtain ⟨c2, hc2, he2⟩ := h2.2 cid c1 hc1
  exact ⟨c2, hc2, clientEvolves_trans he1 he2⟩

theorem clientsEvolve_aupdate {cs : List (Nat × ProxyClient)} {cid : Nat}
    {c c' : ProxyClient} (hc : alookup cs cid = some c) (he : clientEvolves c c') :
    clientsEvolve cs (aupdate cs cid c') := by
  constructor
  · intro cid' h
    rw [alookup_aupdate]
    by_cases hq : cid' = cid
    · subst hq
      rw [hc] at h
      cases h
    · rw [if_neg hq]
      exact h
  · intro cid' c0 h
    rw [alookup_aupdate]
    by_cases hq : cid' = cid
    · subst hq
      rw [hc] at h
      injection h with h
      subst h
      exact ⟨c', by simp [hc], he⟩
    · rw [if_neg hq]
      exact ⟨c0, h, clientEvolves_refl c0⟩

/-- The RPC payload family that always passes the forwarding policy. -/
def rpcFamily : Payload → Bool
  | .RpcRequest _ | .RpcReply _ | .RpcError _ => true
  | _ => false

/-- An in-scope RPC-family packet that `send` accepts (result `ok`) is
appended to the client's queue with its routing rewritten. -/
theorem send_rpc_ok_mem {c c' : ProxyClient} {pkt : Packet} {rel : DeviceRoute}
    (hrel : c.scope.relative_route pkt.routing = some rel)
    (hfam : rpcFamily pkt.payload = true)
    (h : c.send pkt = (c', .ok)) :
    ({ payload := pkt.payload, routing := rel, ttl := pkt.ttl } : Packet) ∈ c'.tx := by
  unfold ProxyClient.send at h
  rw [hrel] at h
  have hpass :
      (match pkt.payload with
        | .RpcRequest _ | .RpcReply _ | .RpcError _ => true
        | .StreamData _ => c.forward_data
        | _ => c.forward_nonrpc) = true := by
    cases hpl : pkt.payload <;> simp [rpcFamily, hpl] at hfam ⊢
  simp only [hpass, Bool.not_true, Bool.false_eq_true, if_false] at h
  by_cases hroom : c.tx.length < c.txCap
  · rw [if_pos hroom] at h
    injection h with h _
    rw [← h]
    simp
  · rw [if_neg hroom] at h
    injection h with _ h
    cases h

/-- `send` never returns `full` for an out-of-scope packet. -/
theorem send_rel_none {c : ProxyClient} {pkt : Packet}
    (hrel : c.scope.relative_route pkt.routing = none) : c.send pkt = (c, .ok) := by
  unfold ProxyClient.send
  rw [hrel]

/-! ### Specification of the timeout-sweep inner loop -/

theorem dispatchBucket_spec (error : RpcErrorCode) :
    ∀ (ids : List Nat) (p p' : Proxy), Proxy.dispatchBucket p error ids = some p' →
      p'.rpc_timeouts = p.rpc_timeouts ∧
      p'.device = p.device ∧
      p'.next_rpc_id = p.next_rpc_id ∧
      p'.rpc_map.Sublist p.rpc_map ∧
      (∀ w ∈ ids, alookup p'.rpc_map w = none) ∧
      (∀ w, w ∉ ids → alookup p'.rpc_map w = alookup p.rpc_map w) ∧
      clientsEvolve p.clients p'.clients ∧
      (∃ suf, p'.events = p.events ++ suf) ∧
      (∀ w ∈ ids, Event.RpcTimeout w ∈ p'.events) := by
  intro ids
  induction ids with
  | nil =>
    intro p p' h
    simp only [Proxy.dispatchBucket] at h
    injection h with h
    subst h
    refine ⟨rfl, rfl, rfl, List.Sublist.refl _, ?_, ?_, clientsEvolve_refl _, ⟨[], by simp⟩, ?_⟩
    · intro w hw
      simp at hw
    · intro w _
      rfl
    · intro w hw
      simp at hw
  | cons wire rest ih =>
    intro p p' h
    simp only [Proxy.dispatchBucket, Proxy.send_event] at h
    split at h
    · cases h
    · rename_i remap hlook
      split at h
      · rename_i hcl
        obtain ⟨ht, hd, hn, hsub, hnone, hother, hcls, ⟨suf, hev⟩, htout⟩ := ih _ _ h
        refine ⟨ht, hd, hn, hsub.trans (aremove_sublist _ _), ?_, ?_, hcls, ?_, ?_⟩
        · intro w hw
          rcases List.mem_cons.mp hw with hw | hw
          · subst hw
            have h1 : alookup (aremove p.rpc_map w) w = none := by
              rw [alookup_aremove, if_pos rfl]
            exact alookup_eq_none_of_sublist hsub h1
          · exact hnone w hw
        · intro w hw
          rw [List.mem_cons] at hw
          push_neg at hw
          rw [hother w hw.2]
          show alookup (aremove p.rpc_map wire) w = alookup p.rpc_map w
          rw [alookup_aremove, if_neg hw.1]
        · exact ⟨Event.RpcTimeout wire :: suf, by rw [hev]; simp⟩
        · intro w hw
          rcases List.mem_cons.mp hw with hw | hw
          · subst hw
            rw [hev]
            have : Event.RpcTimeout w ∈ p.events ++ [Event.RpcTimeout w] := by simp
            exact List.mem_append_left _ this
          · exact htout w hw
      · rename_i c hcl
        split at h
        · cases h
        · rename_i c' hsend
          have hevc : clientEvolves c c' := by
            have he := send_fst_evolves c (PacketBuilder.rpc_error remap.route remap.id error)
            rw [hsend] at he
            exact he
          obtain ⟨ht, hd, hn, hsub, hnone, hother, hcls, ⟨suf, hev⟩, htout⟩ := ih _ _ h
          have hupd : clientsEvolve p.clients
              (aupdate p.clients remap.client c') :=
            clientsEvolve_aupdate hcl hevc
          refine ⟨ht, hd, hn, hsub.trans (aremove_sublist _ _), ?_, ?_,
            clientsEvolve_trans hupd hcls, ?_, ?_⟩
          · intro w hw
            rcases List.mem_cons.mp hw with hw | hw
            · subst hw
              have h1 : alookup (aremove p.rpc_map w) w = none := by
                rw [alookup_aremove, if_pos rfl]
              exact alookup_eq_none_of_sublist hsub h1
            · exact hnone w hw
          · intro w hw
            rw [List.mem_cons] at hw
            push_neg at hw
            rw [hother w hw.2]
            show alookup (aremove p.rpc_map wire) w = alookup p.rpc_map w
            rw [alookup_aremove, if_neg hw.1]
          · exact ⟨Event.RpcTimeout wire :: suf, by rw [hev]; simp⟩
          · intro w hw
            rcases List.mem_cons.mp hw with hw | hw
            · subst hw
              rw [hev]
              have : Event.RpcTimeout w ∈ p.events ++ [Event.RpcTimeout w] := by simp
              exact List.mem_append_left _ this
            · exact htout w hw

theorem dispatchBucket_found (error : RpcErrorCode) :
    ∀ (ids : List Nat) (p p' : Proxy), Proxy.dispatchBucket p error ids = some p' →
      ∀ w ∈ ids, (alookup p.rpc_map w).isSome := by
  intro ids
  induction ids with
  | nil =>
    intro p p' h w hw
    simp at hw
  | cons wire rest ih =>
    intro p p' h w hw
    simp only [Proxy.dispatchBucket, Proxy.send_event] at h
    split at h
    · cases h
    · rename_i remap hlook
      rcases List.mem_cons.mp hw with hw | hw
      · subst hw
        have h1 : alookup p.rpc_map w = some remap := hlook
        rw [h1]
        rfl
      · have hsome : (alookup (aremove p.rpc_map wire) w).isSome := by
          split at h
          · exact ih _ _ h w hw
          · split at h
            · cases h
            · exact ih _ _ h w hw
        rw [alookup_aremove] at hsome
        by_cases hq : w = wire
        · rw [if_pos hq] at hsome
          simp at hsome
        · rwa [if_neg hq] at hsome

theorem dispatchBucket_delivers (error : RpcErrorCode) :
    ∀ (ids : List Nat) (p p' : Proxy), Proxy.dispatchBucket p error ids = some p' →
      ∀ w ∈ ids, ∀ e : RpcMapEntry, alookup p.rpc_map w = some e →
        ∀ c : ProxyClient, alookup p.clients e.client = some c →
          ∀ rel : DeviceRoute, c.scope.relative_route e.route = some rel →
            ∃ c', alookup p'.clients e.client = some c' ∧
              ({ payload := .RpcError { id := e.id, error := error, extra := [] },
                 routing := rel, ttl := 0 } : Packet) ∈ c'.tx := by
  intro ids
  induction ids with
  | nil =>
    intro p p' h w hw
    simp at hw
  | cons wire rest ih =>
    intro p p' h w hw e he c hc rel hrel
    simp only [Proxy.dispatchBucket, Proxy.send_event] at h
    split at h
    · cases h
    · rename_i remap hlook
      rcases List.mem_cons.mp hw with hweq | hwr
      · subst hweq
        have hre : remap = e := by
          have h1 : alookup p.rpc_map w = some remap := hlook
          rw [he] at h1
          exact (Option.some.inj h1).symm
        subst hre
        split at h
        · rename_i hcl
          have h1 : alookup p.clients remap.client = none := hcl
          rw [hc] at h1
          cases h1
        · rename_i c0 hcl
          have h1 : alookup p.clients remap.client = some c0 := hcl
          rw [hc] at h1
          have hcc : c = c0 := Option.some.inj h1
          subst hcc
          split at h
          · cases h
          · rename_i c' hsend
            have hsend' :
                c.send (PacketBuilder.rpc_error remap.route remap.id error) = (c', .ok) :=
              hsend
            have hr : c.scope.relative_route
                (PacketBuilder.rpc_error remap.route remap.id error).routing = some rel := hrel
            have hmem := send_rpc_ok_mem hr (by rfl) hsend'
            have hmem' :
                ({ payload := .RpcError { id := remap.id, error := error, extra := [] },
                   routing := rel, ttl := 0 } : Packet) ∈ c'.tx := hmem
            obtain ⟨-, -, -, -, -, -, hcls, -, -⟩ := dispatchBucket_spec error rest _ _ h
            have hc2 : alookup (aupdate p.clients remap.client c') remap.client = some c' := by
              rw [alookup_aupdate, if_pos rfl]
              have h2 : alookup p.clients remap.client = some c := hc
              rw [h2]
              rfl
            obtain ⟨c'', hc'', hev2⟩ := hcls.2 remap.client c' hc2
            refine ⟨c'', hc'', ?_⟩
            obtain ⟨-, -, -, -, -, suf, hsuf⟩ := hev2
            rw [hsuf]
            exact List.mem_append_left _ hmem'
      · have hq : w ≠ wire := by
          intro hq
          subst hq
          have hsome : (alookup (aremove p.rpc_map w) w).isSome := by
            split at h
            · exact dispatchBucket_found error rest _ _ h w hwr
            · split at h
              · cases h
              · exact dispatchBucket_found error rest _ _ h w hwr
          rw [alookup_aremove, if_pos rfl] at hsome
          simp at hsome
        have he1 : alookup (aremove p.rpc_map wire) w = some e := by
          rw [alookup_aremove, if_neg hq]
          exact he
        split at h
        · rename_i hcl
          exact ih _ _ h w hwr e he1 c hc rel hrel
        · rename_i c0 hcl
          split at h
          · cases h
          · rename_i c0' hsend
            by_cases hcq : e.client = remap.client
            · have hc0 : alookup p.clients remap.client = some c0 := hcl
              have hcc : c0 = c := by
                rw [← hcq] at hc0
                rw [hc] at hc0
                exact (Option.some.inj hc0).symm
              subst hcc
              have hev : clientEvolves c0 c0' := by
                have he2 := send_fst_evolves c0
                  (PacketBuilder.rpc_error remap.route remap.id error)
                rw [hsend] at he2
                exact he2
              have hc2 : alookup (aupdate p.clients remap.client c0') e.client = some c0' := by
                rw [hcq, alookup_aupdate, if_pos rfl]
                have h2 : alookup p.clients remap.client = some c0 := hcl
                rw [h2]
                rfl
              have hrel2 : c0'.scope.relative_route e.route = some rel := by
                rw [hev.2.2.1]
                exact hrel
              exact ih _ _ h w hwr e he1 c0' hc2 rel hrel2
            · have hc2 : alookup (aupdate p.clients remap.client c0') e.client = some c := by
                rw [alookup_aupdate, if_neg hcq]
                exact hc
              exact ih _ _ h w hwr e he1 c hc2 rel hrel

/-! ### Specification of the timeout-sweep outer loop -/

/-- The prefix of the deadline index processed by a sweep with the given
cutoff: the buckets with deadline strictly below it (the walk stops at the
first key `≥ cutoff`, and a sorted index puts every smaller key before it). -/
def bucketsBefore (cutoff : Nat) (l : List (Nat × List Nat)) : List (Nat × List Nat) :=
  l.takeWhile (fun kv => decide (kv.1 < cutoff))

def keysBefore (cutoff : Nat) (l : List (Nat × List Nat)) : List Nat :=
  (bucketsBefore cutoff l).map Prod.fst

def idsBefore (cutoff : Nat) (l : List (Nat × List Nat)) : List Nat :=
  (bucketsBefore cutoff l).flatMap Prod.snd

theorem bucketsBefore_sublist (cutoff : Nat) (l : List (Nat × List Nat)) :
    (bucketsBefore cutoff l).Sublist l :=
  (List.takeWhile_prefix _).sublist

theorem bucketsBefore_cons_lt {cutoff : Nat} {kv : Nat × List Nat}
    {rest : List (Nat × List Nat)} (h : kv.1 < cutoff) :
    bucketsBefore cutoff (kv :: rest) = kv :: bucketsBefore cutoff rest := by
  simp [bucketsBefore, List.takeWhile_cons, h]

theorem bucketsBefore_cons_ge {cutoff : Nat} {kv : Nat × List Nat}
    {rest : List (Nat × List Nat)} (h : ¬ kv.1 < cutoff) :
    bucketsBefore cutoff (kv :: rest) = [] := by
  simp [bucketsBefore, List.takeWhile_cons, h]

theorem mem_keysBefore_lt {cutoff t : Nat} {l : List (Nat × List Nat)}
    (h : t ∈ keysBefore cutoff l) : t < cutoff := by
  rw [keysBefore, List.mem_map] at h
  obtain ⟨kv, hkv, rfl⟩ := h
  have := List.mem_takeWhile_imp hkv
  simpa using this

theorem sorted_mem_bucketsBefore {cutoff : Nat} {l : List (Nat × List Nat)}
    {t : Nat} {b : List Nat} (hs : l.Pairwise (fun a b => a.1 < b.1))
    (hmem : (t, b) ∈ l) (ht : t < cutoff) : (t, b) ∈ bucketsBefore cutoff l := by
  induction l with
  | nil => simp at hmem
  | cons kv rest ih =>
    rw [List.pairwise_cons] at hs
    by_cases hp : kv.1 < cutoff
    · rw [bucketsBefore_cons_lt hp]
      rcases List.mem_cons.mp hmem with h | h
      · rw [h]
        exact List.mem_cons_self _ _
      · exact List.mem_cons_of_mem _ (ih hs.2 h)
    · rcases List.mem_cons.mp hmem with h | h
      · rw [← h] at hp
        exact absurd ht hp
      · have := hs.1 (t, b) h
        omega

theorem mem_idsBefore {cutoff w : Nat} {l : List (Nat × List Nat)} :
    w ∈ idsBefore cutoff l ↔ ∃ kv ∈ bucketsBefore cutoff l, w ∈ kv.2 := by
  rw [idsBefore, List.mem_flatMap]

theorem isSome_of_sublist {α : Type} {l' l : List (Nat × α)} {k : Nat}
    (hs : l'.Sublist l) (h : (alookup l' k).isSome) : (alookup l k).isSome := by
  cases hl : alookup l k with
  | some v => rfl
  | none =>
    rw [alookup_eq_none_of_sublist hs hl] at h
    simp at h

theorem dispatchGo_spec (error : RpcErrorCode) (cutoff : Nat) :
    ∀ (buckets : List (Nat × List Nat)) (acc : List Nat) (p p' : Proxy),
      Proxy.dispatchGo p cutoff error acc buckets = some p' →
      p'.rpc_timeouts = removeKeys (acc ++ keysBefore cutoff buckets) p.rpc_timeouts ∧
      p'.device = p.device ∧
      p'.next_rpc_id = p.next_rpc_id ∧
      p'.rpc_map.Sublist p.rpc_map ∧
      (∀ w ∈ idsBefore cutoff buckets, alookup p'.rpc_map w = none) ∧
      (∀ w, w ∉ idsBefore cutoff buckets → alookup p'.rpc_map w = alookup p.rpc_map w) ∧
      clientsEvolve p.clients p'.clients ∧
      (∃ suf, p'.events = p.events ++ suf) ∧
      (∀ w ∈ idsBefore cutoff buckets, Event.RpcTimeout w ∈ p'.events) := by
  intro buckets
  induction buckets with
  | nil =>
    intro acc p p' h
    simp only [Proxy.dispatchGo] at h
    injection h with h
    subst h
    refine ⟨?_, rfl, rfl, List.Sublist.refl _, ?_, ?_, clientsEvolve_refl _, ⟨[], by simp⟩, ?_⟩
    · simp [keysBefore, bucketsBefore]
    · intro w hw
      simp [idsBefore, bucketsBefore] at hw
    · intro w _
      rfl
    · intro w hw
      simp [idsBefore, bucketsBefore] at hw
  | cons tb rest ih =>
    obtain ⟨t, ids⟩ := tb
    intro acc p p' h
    simp only [Proxy.dispatchGo] at h
    split at h
    · rename_i hstop
      injection h with h
      subst h
      have hb : bucketsBefore cutoff ((t, ids) :: rest) = [] :=
        bucketsBefore_cons_ge (show ¬ (t, ids).1 < cutoff from Nat.not_lt.mpr hstop)
      refine ⟨?_, rfl, rfl, List.Sublist.refl _, ?_, ?_, clientsEvolve_refl _, ⟨[], by simp⟩, ?_⟩
      · rw [keysBefore, hb]
        simp
      · intro w hw
        rw [mem_idsBefore] at hw
        obtain ⟨kv, hkv, _⟩ := hw
        rw [hb] at hkv
        simp at hkv
      · intro w _
        rfl
      · intro w hw
        rw [mem_idsBefore] at hw
        obtain ⟨kv, hkv, _⟩ := hw
        rw [hb] at hkv
        simp at hkv
    · rename_i hgo
      split at h
      · cases h
      · rename_i p1 hbq
        obtain ⟨hBt, hBd, hBn, hBsub, hBnone, hBother, hBcls, ⟨sufB, hBev⟩, hBtout⟩ :=
          dispatchBucket_spec error ids p p1 hbq
        obtain ⟨ht, hd, hn, hsub, hnone, hother, hcls, ⟨suf, hev⟩, htout⟩ :=
          ih (acc ++ [t]) p1 p' h
        have hbb : bucketsBefore cutoff ((t, ids) :: rest) =
            (t, ids) :: bucketsBefore cutoff rest :=
          bucketsBefore_cons_lt (show (t, ids).1 < cutoff from Nat.not_le.mp hgo)
        have hkb : keysBefore cutoff ((t, ids) :: rest) = t :: keysBefore cutoff rest := by
          rw [keysBefore, hbb, List.map_cons]
          rfl
        have hib : idsBefore cutoff ((t, ids) :: rest) = ids ++ idsBefore cutoff rest := by
          rw [idsBefore, hbb, List.flatMap_cons]
          rfl
        refine ⟨?_, hd.trans hBd, hn.trans hBn, hsub.trans hBsub, ?_, ?_,
          clientsEvolve_trans hBcls hcls, ?_, ?_⟩
        · rw [hkb, ht, hBt, List.append_assoc, List.singleton_append]
        · intro w hw
          rw [hib] at hw
          rcases List.mem_append.mp hw with hw | hw
          · by_cases hw2 : w ∈ idsBefore cutoff rest
            · exact hnone w hw2
            · rw [hother w hw2]
              exact hBnone w hw
          · exact hnone w hw
        · intro w hw
          rw [hib] at hw
          have hw1 : w ∉ ids := fun hx => hw (List.mem_append.mpr (Or.inl hx))
          have hw2 : w ∉ idsBefore cutoff rest := fun hx => hw (List.mem_append.mpr (Or.inr hx))
          rw [hother w hw2, hBother w hw1]
        · exact ⟨sufB ++ suf, by rw [hev, hBev, List.append_assoc]⟩
        · intro w hw
          rw [hib] at hw
          rcases List.mem_append.mp hw with hw | hw
          · have hmem := hBtout w hw
            rw [hev]
            exact List.mem_append_left _ hmem
          · exact htout w hw

theorem dispatchGo_found (error : RpcErrorCode) (cutoff : Nat) :
    ∀ (buckets : List (Nat × List Nat)) (acc : List Nat) (p p' : Proxy),
      Proxy.dispatchGo p cutoff error acc buckets = some p' →
      ∀ w ∈ idsBefore cutoff buckets, (alookup p.rpc_map w).isSome := by
  intro buckets
  induction buckets with
  | nil =>
    intro acc p p' h w hw
    simp [idsBefore, bucketsBefore] at hw
  | cons tb rest ih =>
    obtain ⟨t, ids⟩ := tb
    intro acc p p' h w hw
    simp only [Proxy.dispatchGo] at h
    split at h
    · rename_i hstop
      rw [mem_idsBefore] at hw
      obtain ⟨kv, hkv, _⟩ := hw
      rw [bucketsBefore_cons_ge (show ¬ (t, ids).1 < cutoff from Nat.not_lt.mpr hstop)] at hkv
      simp at hkv
    · rename_i hgo
      split at h
      · cases h
      · rename_i p1 hbq
        have hib : idsBefore cutoff ((t, ids) :: rest) = ids ++ idsBefore cutoff rest := by
          rw [idsBefore,
            bucketsBefore_cons_lt (show (t, ids).1 < cutoff from Nat.not_le.mp hgo),
            List.flatMap_cons]
          rfl
        rw [hib] at hw
        rcases List.mem_append.mp hw with hw | hw
        · exact dispatchBucket_found error ids p p1 hbq w hw
        · have h1 := ih (acc ++ [t]) p1 p' h w hw
          exact isSome_of_sublist (dispatchBucket_spec error ids p p1 hbq).2.2.2.1 h1

theorem dispatchGo_delivers (error : RpcErrorCode) (cutoff : Nat) :
    ∀ (buckets : List (Nat × List Nat)) (acc : List Nat) (p p' : Proxy),
      Proxy.dispatchGo p cutoff error acc buckets = some p' →
      ∀ w ∈ idsBefore cutoff buckets, ∀ e : RpcMapEntry, alookup p.rpc_map w = some e →
        ∀ c : ProxyClient, alookup p.clients e.client = some c →
          ∀ rel : DeviceRoute, c.scope.relative_route e.route = some rel →
            ∃ c', alookup p'.clients e.client = some c' ∧
              ({ payload := .RpcError { id := e.id, error := error, extra := [] },
                 routing := rel, ttl := 0 } : Packet) ∈ c'.tx := by
  intro buckets
  induction buckets with
  | nil =>
    intro acc p p' h w hw
    simp [idsBefore, bucketsBefore] at hw
  | cons tb rest ih =>
    obtain ⟨t, ids⟩ := tb
    intro acc p p' h w hw e he c hc rel hrel
    simp only [Proxy.dispatchGo] at h
    split at h
    · rename_i hstop
      rw [mem_idsBefore] at hw
      obtain ⟨kv, hkv, _⟩ := hw
      rw [bucketsBefore_cons_ge (show ¬ (t, ids).1 < cutoff from Nat.not_lt.mpr hstop)] at hkv
      simp at hkv
    · rename_i hgo
      split at h
      · cases h
      · rename_i p1 hbq
        obtain ⟨hBt, hBd, hBn, hBsub, hBnone, hBother, hBcls, hBev, hBtout⟩ :=
          dispatchBucket_spec error ids p p1 hbq
        have hib : idsBefore cutoff ((t, ids) :: rest) = ids ++ idsBefore cutoff rest := by
          rw [idsBefore,
            bucketsBefore_cons_lt (show (t, ids).1 < cutoff from Nat.not_le.mp hgo),
            List.flatMap_cons]
          rfl
        rw [hib] at hw
        rcases List.mem_append.mp hw with hw | hw
        · obtain ⟨c1, hc1, hmem⟩ :=
            dispatchBucket_delivers error ids p p1 hbq w hw e he c hc rel hrel
          obtain ⟨-, -, -, -, -, -, hcls, -, -⟩ := dispatchGo_spec error cutoff rest (acc ++ [t]) p1 p' h
          obtain ⟨c2, hc2, hev2⟩ := hcls.2 e.client c1 hc1
          refine ⟨c2, hc2, ?_⟩
          obtain ⟨-, -, -, -, -, suf, hsuf⟩ := hev2
          rw [hsuf]
          exact List.mem_append_left _ hmem
        · have hfound := dispatchGo_found error cutoff rest (acc ++ [t]) p1 p' h w hw
          have hnotids : w ∉ ids := by
            intro hx
            rw [hBnone w hx] at hfound
            simp at hfound
          have he1 : alookup p1.rpc_map w = some e := by
            rw [hBother w hnotids]
            exact he
          obtain ⟨c1, hc1, hev1⟩ := hBcls.2 e.client c hc
          have hrel1 : c1.scope.relative_route e.route = some rel := by
            rw [hev1.2.2.1]
            exact hrel
          exact ih (acc ++ [t]) p1 p' h w hw e he1 c1 hc1 rel hrel1

/-! ### Preservation of the remap-table invariant -/

theorem aremove_eq_self {α : Type} {l : List (Nat × α)} {k : Nat}
    (h : alookup l k = none) : aremove l k = l := by
  rw [alookup_eq_none_iff] at h
  unfold aremove
  rw [List.filter_eq_self]
  intro kv hkv
  simp only [decide_eq_true_eq]
  intro hq
  exact h (List.mem_map.mpr ⟨kv, hkv, hq⟩)

theorem mem_aupdate {α : Type} {l : List (Nat × α)} {key : Nat} {v : α}
    {kv : Nat × α} (h : kv ∈ aupdate l key v) : kv = (key, v) ∨ (kv ∈ l ∧ kv.1 ≠ key) := by
  unfold aupdate at h
  rw [List.mem_map] at h
  obtain ⟨kv0, hkv0, hmap⟩ := h
  by_cases hq : kv0.1 = key
  · left
    rw [← hmap, if_pos hq]
  · right
    rw [if_neg hq] at hmap
    subst hmap
    exact ⟨hkv0, hq⟩

theorem aupdate_sorted {l : List (Nat × List Nat)} {key : Nat} {v : List Nat}
    (hs : l.Pairwise (fun a b => a.1 < b.1)) :
    (aupdate l key v).Pairwise (fun a b => a.1 < b.1) := by
  unfold aupdate
  rw [List.pairwise_map]
  refine hs.imp ?_
  intro a b hab
  by_cases ha : a.1 = key <;> by_cases hb : b.1 = key <;>
    simp only [if_pos, if_neg, ha, hb, ite_true, ite_false] <;> simpa [ha, hb] using hab

theorem sorted_keys_nodup {l : List (Nat × List Nat)}
    (hs : l.Pairwise (fun a b => a.1 < b.1)) : (l.map Prod.fst).Nodup := by
  show (l.map Prod.fst).Pairwise (fun a b => a ≠ b)
  rw [List.pairwise_map]
  exact hs.imp (fun h => Nat.ne_of_lt h)

theorem rpcWF_rpc_restore {p : Proxy} {w : Nat} {p' : Proxy} {r : Option (Nat × Nat)}
    (hwf : p.rpcWF) (h : p.rpc_restore w = some (p', r)) : p'.rpcWF := by
  obtain ⟨hnd, hsort, hbnd, hinv1, hinv2⟩ := hwf
  unfold Proxy.rpc_restore at h
  split at h
  · injection h with h
    rw [Prod.mk.injEq] at h
    obtain ⟨h1, -⟩ := h
    subst h1
    exact ⟨hnd, hsort, hbnd, hinv1, hinv2⟩
  · rename_i remap hlook
    split at h
    · cases h
    · rename_i ids hbk
      injection h with h
      rw [Prod.mk.injEq] at h
      obtain ⟨h1, -⟩ := h
      subst h1
      have hids_nodup : ids.Nodup := hbnd (remap.timeout, ids) (mem_of_alookup hbk)
      simp only [Proxy.rpcWF, Proxy.send_event, Proxy.bucketOf, Proxy.entryTimeout]
      by_cases hlen : (ids.erase w).length = 0
      · simp only [if_pos hlen]
        have hfilter : p.rpc_timeouts.filter (fun kv => kv.1 ≠ remap.timeout) =
            aremove p.rpc_timeouts remap.timeout := rfl
        refine ⟨List.Nodup.sublist ((aremove_sublist p.rpc_map w).map Prod.fst) hnd,
          List.Pairwise.sublist (List.filter_sublist _) hsort, ?_, ?_, ?_⟩
        · intro tb htb
          exact hbnd tb (List.mem_filter.mp htb).1
        · intro kv hkv
          have hkvmem : kv ∈ p.rpc_map := (aremove_sublist p.rpc_map w).mem hkv
          have hkvne : kv.1 ≠ w := by
            have := (List.mem_filter.mp hkv).2
            simpa using this
          have hold := hinv1 kv hkvmem
          simp only [Proxy.bucketOf] at hold
          by_cases hteq : kv.2.timeout = remap.timeout
          · rw [hteq, hbk] at hold
            simp only [Option.getD_some] at hold
            have hin : kv.1 ∈ ids.erase w := (List.mem_erase_of_ne hkvne).mpr hold
            rw [List.length_eq_zero] at hlen
            rw [hlen] at hin
            simp at hin
          · rw [hfilter, alookup_aremove, if_neg hteq]
            exact hold
        · intro tb htb
          obtain ⟨htbmem, htbcond⟩ := List.mem_filter.mp htb
          have htbne : tb.1 ≠ remap.timeout := by simpa using htbcond
          obtain ⟨hne, hmap⟩ := hinv2 tb htbmem
          refine ⟨hne, ?_⟩
          intro w' hw'
          have hold := hmap w' hw'
          simp only [Proxy.entryTimeout] at hold
          have hw'ne : w' ≠ w := by
            intro hq
            subst hq
            rw [hlook] at hold
            simp at hold
            exact htbne hold.symm
          rw [alookup_aremove, if_neg hw'ne]
          exact hold
      · simp only [if_neg hlen]
        refine ⟨List.Nodup.sublist ((aremove_sublist p.rpc_map w).map Prod.fst) hnd,
          aupdate_sorted hsort, ?_, ?_, ?_⟩
        · intro tb htb
          rcases mem_aupdate htb with htb | ⟨htb, -⟩
          · rw [htb]
            exact List.Nodup.erase w hids_nodup
          · exact hbnd tb htb
        · intro kv hkv
          have hkvmem : kv ∈ p.rpc_map := (aremove_sublist p.rpc_map w).mem hkv
          have hkvne : kv.1 ≠ w := by
            have := (List.mem_filter.mp hkv).2
            simpa using this
          have hold := hinv1 kv hkvmem
          simp only [Proxy.bucketOf] at hold
          rw [alookup_aupdate]
          by_cases hteq : kv.2.timeout = remap.timeout
          · rw [if_pos hteq, hbk]
            rw [hteq, hbk] at hold
            simp only [Option.getD_some] at hold
            simp
            exact (List.mem_erase_of_ne hkvne).mpr hold
          · rw [if_neg hteq]
            exact hold
        · intro tb htb
          rcases mem_aupdate htb with htb | ⟨htbmem, htbne⟩
          · subst htb
            refine ⟨fun hq => hlen (by rw [List.length_eq_zero]; exact hq), ?_⟩
            intro w' hw'
            obtain ⟨hw'ne, hw'mem⟩ := (List.Nodup.mem_erase_iff hids_nodup).mp hw'
            obtain ⟨-, hmap⟩ := hinv2 (remap.timeout, ids) (mem_of_alookup hbk)
            have hold := hmap w' hw'mem
            simp only [Proxy.entryTimeout] at hold
            rw [alookup_aremove, if_neg hw'ne]
            exact hold
          · obtain ⟨hne, hmap⟩ := hinv2 tb htbmem
            refine ⟨hne, ?_⟩
            intro w' hw'
            have hold := hmap w' hw'
            simp only [Proxy.entryTimeout] at hold
            have hw'ne : w' ≠ w := by
              intro hq
              subst hq
              rw [hlook] at hold
              simp at hold
              exact htbne hold.symm
            rw [alookup_aremove, if_neg hw'ne]
            exact hold

theorem rpc_restore_isSome {p : Proxy} (w : Nat) (hwf : p.rpcWF) :
    (p.rpc_restore w).isSome := by
  obtain ⟨-, -, -, hinv1, -⟩ := hwf
  unfold Proxy.rpc_restore
  split
  · rfl
  · rename_i remap hlook
    have hold := hinv1 (w, remap) (mem_of_alookup hlook)
    simp only [Proxy.bucketOf] at hold
    split
    · rename_i hbk
      rw [hbk] at hold
      simp at hold
    · rfl

theorem rpcWF_of_fields {p p' : Proxy} (hm : p'.rpc_map = p.rpc_map)
    (ht : p'.rpc_timeouts = p.rpc_timeouts) (h : p.rpcWF) : p'.rpcWF := by
  unfold Proxy.rpcWF Proxy.bucketOf Proxy.entryTimeout at h ⊢
  rw [hm, ht]
  exact h

theorem rpcWF_forward_to_device {p : Proxy} {now : Nat} {pkt : Packet} {cid : Nat}
    {p' : Proxy} {ret : Option Packet}
    (hwf : p.rpcWF) (h : p.forward_to_device now pkt cid = some (p', ret)) : p'.rpcWF := by
  obtain ⟨hnd, hsort, hbnd, hinv1, hinv2⟩ := hwf
  obtain ⟨pl, routing, ttl⟩ := pkt
  cases pl with
  | RpcRequest req =>
    simp only [Proxy.forward_to_device, Proxy.send_event] at h
    split at h
    · rename_i hcoll
      injection h with h
      rw [Prod.mk.injEq] at h
      obtain ⟨h1, -⟩ := h
      subst h1
      exact @rpcWF_of_fields p _ rfl rfl ⟨hnd, hsort, hbnd, hinv1, hinv2⟩
    · rename_i hfresh
      split at h
      · cases h
      · rename_i dur hdur
        have hfresh' : alookup p.rpc_map p.next_rpc_id = none := by
          rcases hl : alookup p.rpc_map p.next_rpc_id with - | v
          · rfl
          · rw [hl] at hfresh
            simp at hfresh
        have hfreshbucket : ∀ tb ∈ p.rpc_timeouts, p.next_rpc_id ∉ tb.2 := by
          intro tb htb hmem
          obtain ⟨-, hmap⟩ := hinv2 tb htb
          have := hmap _ hmem
          simp only [Proxy.entryTimeout, hfresh'] at this
          cases this
        split at h
        · rename_i dev hdev
          split at h
          · rename_i hok
            injection h with h
            rw [Prod.mk.injEq] at h
            obtain ⟨h1, -⟩ := h
            subst h1
            simp only [Proxy.rpcWF, Proxy.bucketOf, Proxy.entryTimeout]
            refine ⟨?_, timeoutsAdd_sorted hsort, ?_, ?_, ?_⟩
            · rw [List.map_cons, List.nodup_cons]
              exact ⟨(alookup_eq_none_iff _ _).mp hfresh', hnd⟩
            · intro tb htb
              rcases mem_timeoutsAdd htb with ⟨b, htb, hb⟩ | ⟨htb, -⟩
              · rw [htb]
                rcases hb with hb | hb
                · exact addWire_nodup (hbnd (now + dur, b) hb)
                · rw [hb]
                  exact addWire_nodup List.nodup_nil
              · exact hbnd tb htb
            · intro kv hkv
              rcases List.mem_cons.mp hkv with hkv | hkv
              · rw [hkv]
                rw [alookup_timeoutsAdd, if_pos rfl]
                simp only [Option.getD_some]
                exact mem_addWire.mpr (Or.inl rfl)
              · have hold := hinv1 kv hkv
                simp only [Proxy.bucketOf] at hold
                rw [alookup_timeoutsAdd]
                by_cases hteq : now + dur = kv.2.timeout
                · rw [if_pos hteq]
                  simp only [Option.getD_some]
                  rw [← hteq] at hold
                  exact mem_addWire.mpr (Or.inr hold)
                · rw [if_neg hteq]
                  exact hold
            · intro tb htb
              rcases mem_timeoutsAdd htb with ⟨b, htb, hb⟩ | ⟨htbmem, htbne⟩
              · subst htb
                refine ⟨addWire_ne_nil, ?_⟩
                intro w' hw'
                rcases mem_addWire.mp hw' with hw' | hw'
                · subst hw'
                  rw [alookup_cons, if_pos rfl]
                  rfl
                · rcases hb with hb | hb
                  · obtain ⟨-, hmap⟩ := hinv2 (now + dur, b) hb
                    have hold := hmap w' hw'
                    simp only [Proxy.entryTimeout] at hold
                    have hne : p.next_rpc_id ≠ w' := by
                      intro hq
                      exact hfreshbucket (now + dur, b) hb (hq ▸ hw')
                    rw [alookup_cons, if_neg hne]
                    exact hold
                  · rw [hb] at hw'
                    cases hw'
              · obtain ⟨hne, hmap⟩ := hinv2 tb htbmem
                refine ⟨hne, ?_⟩
                intro w' hw'
                have hold := hmap w' hw'
                simp only [Proxy.entryTimeout] at hold
                have hne2 : p.next_rpc_id ≠ w' := by
                  intro hq
                  exact hfreshbucket tb htbmem (hq ▸ hw')
                rw [alookup_cons, if_neg hne2]
                exact hold
          · rename_i hok
            injection h with h
            rw [Prod.mk.injEq] at h
            obtain ⟨h1, -⟩ := h
            subst h1
            refine @rpcWF_of_fields p _ ?_ rfl ⟨hnd, hsort, hbnd, hinv1, hinv2⟩
            have hcons : aremove ((p.next_rpc_id,
                ({ id := req.id, client := cid, route := routing, timeout := now + dur } :
                  RpcMapEntry)) :: p.rpc_map) p.next_rpc_id =
                aremove p.rpc_map p.next_rpc_id := by
              simp [aremove, List.filter_cons]
            exact hcons.trans (aremove_eq_self hfresh')
        · injection h with h
          rw [Prod.mk.injEq] at h
          obtain ⟨h1, -⟩ := h
          subst h1
          refine @rpcWF_of_fields p _ ?_ rfl ⟨hnd, hsort, hbnd, hinv1, hinv2⟩
          have hcons : aremove ((p.next_rpc_id,
              ({ id := req.id, client := cid, route := routing, timeout := now + dur } :
                RpcMapEntry)) :: p.rpc_map) p.next_rpc_id =
              aremove p.rpc_map p.next_rpc_id := by
            simp [aremove, List.filter_cons]
          exact hcons.trans (aremove_eq_self hfresh')
  | RpcReply rep =>
    simp only [Proxy.forward_to_device] at h
    split at h
    · split at h <;>
        (injection h with h; rw [Prod.mk.injEq] at h; obtain ⟨h1, -⟩ := h; subst h1;
          exact @rpcWF_of_fields p _ rfl rfl ⟨hnd, hsort, hbnd, hinv1, hinv2⟩)
    · injection h with h
      rw [Prod.mk.injEq] at h
      obtain ⟨h1, -⟩ := h
      subst h1
      exact @rpcWF_of_fields p _ rfl rfl ⟨hnd, hsort, hbnd, hinv1, hinv2⟩
  | RpcError err =>
    simp only [Proxy.forward_to_device] at h
    split at h
    · split at h <;>
        (injection h with h; rw [Prod.mk.injEq] at h; obtain ⟨h1, -⟩ := h; subst h1;
          exact @rpcWF_of_fields p _ rfl rfl ⟨hnd, hsort, hbnd, hinv1, hinv2⟩)
    · injection h with h
      rw [Prod.mk.injEq] at h
      obtain ⟨h1, -⟩ := h
      subst h1
      exact @rpcWF_of_fields p _ rfl rfl ⟨hnd, hsort, hbnd, hinv1, hinv2⟩
  | StreamData d =>
    simp only [Proxy.forward_to_device] at h
    split at h
    · split at h <;>
        (injection h with h; rw [Prod.mk.injEq] at h; obtain ⟨h1, -⟩ := h; subst h1;
          exact @rpcWF_of_fields p _ rfl rfl ⟨hnd, hsort, hbnd, hinv1, hinv2⟩)
    · injection h with h
      rw [Prod.mk.injEq] at h
      obtain ⟨h1, -⟩ := h
      subst h1
      exact @rpcWF_of_fields p _ rfl rfl ⟨hnd, hsort, hbnd, hinv1, hinv2⟩
  | Heartbeat hb =>
    simp only [Proxy.forward_to_device] at h
    split at h
    · split at h <;>
        (injection h with h; rw [Prod.mk.injEq] at h; obtain ⟨h1, -⟩ := h; subst h1;
          exact @rpcWF_of_fields p _ rfl rfl ⟨hnd, hsort, hbnd, hinv1, hinv2⟩)
    · injection h with h
      rw [Prod.mk.injEq] at h
      obtain ⟨h1, -⟩ := h
      subst h1
      exact @rpcWF_of_fields p _ rfl rfl ⟨hnd, hsort, hbnd, hinv1, hinv2⟩
  | OtherPayload o =>
    simp only [Proxy.forward_to_device] at h
    split at h
    · split at h <;>
        (injection h with h; rw [Prod.mk.injEq] at h; obtain ⟨h1, -⟩ := h; subst h1;
          exact @rpcWF_of_fields p _ rfl rfl ⟨hnd, hsort, hbnd, hinv1, hinv2⟩)
    · injection h with h
      rw [Prod.mk.injEq] at h
      obtain ⟨h1, -⟩ := h
      subst h1
      exact @rpcWF_of_fields p _ rfl rfl ⟨hnd, hsort, hbnd, hinv1, hinv2⟩

theorem rpcWF_dispatch_rpc_timeouts {p : Proxy} {cutoff : Nat} {error : RpcErrorCode}
    {p' : Proxy} (hwf : p.rpcWF) (h : p.dispatch_rpc_timeouts cutoff error = some p') :
    p'.rpcWF := by
  obtain ⟨hnd, hsort, hbnd, hinv1, hinv2⟩ := hwf
  unfold Proxy.dispatch_rpc_timeouts at h
  obtain ⟨ht, -, -, hsub, hnone, hother, -, -, -⟩ :=
    dispatchGo_spec error cutoff p.rpc_timeouts [] p p' h
  rw [List.nil_append] at ht
  have hkeysnd : (p.rpc_timeouts.map Prod.fst).Nodup := sorted_keys_nodup hsort
  have hnd' : (p'.rpc_map.map Prod.fst).Nodup := List.Nodup.sublist (hsub.map Prod.fst) hnd
  refine ⟨hnd', ?_, ?_, ?_, ?_⟩
  · rw [ht]
    exact List.Pairwise.sublist (removeKeys_sublist _ _) hsort
  · intro tb htb
    rw [ht] at htb
    exact hbnd tb (mem_removeKeys.mp htb).1
  · intro kv hkv
    have hkvmem : kv ∈ p.rpc_map := hsub.mem hkv
    have hold := hinv1 kv hkvmem
    simp only [Proxy.bucketOf] at hold ⊢
    cases hbk : alookup p.rpc_timeouts kv.2.timeout with
    | none =>
      rw [hbk] at hold
      simp at hold
    | some b =>
      rw [hbk] at hold
      simp only [Option.getD_some] at hold
      have hnotbefore : kv.2.timeout ∉ keysBefore cutoff p.rpc_timeouts := by
        intro hin
        rw [keysBefore, List.mem_map] at hin
        obtain ⟨kv2, hkv2, hkeq⟩ := hin
        have hkv2mem : kv2 ∈ p.rpc_timeouts := (bucketsBefore_sublist _ _).mem hkv2
        have hlook2 := alookup_of_mem_nodup hkeysnd
          (show (kv2.1, kv2.2) ∈ p.rpc_timeouts by simpa using hkv2mem)
        rw [hkeq, hbk] at hlook2
        have hbeq : kv2.2 = b := (Option.some.inj hlook2).symm
        have hids : kv.1 ∈ idsBefore cutoff p.rpc_timeouts :=
          mem_idsBefore.mpr ⟨kv2, hkv2, hbeq ▸ hold⟩
        have hcontra := hnone kv.1 hids
        rw [alookup_of_mem_nodup hnd' (show (kv.1, kv.2) ∈ p'.rpc_map by simpa using hkv)]
          at hcontra
        cases hcontra
      rw [ht, alookup_removeKeys, if_neg hnotbefore, hbk]
      simpa using hold
  · intro tb htb
    rw [ht] at htb
    obtain ⟨htbmem, htbnot⟩ := mem_removeKeys.mp htb
    obtain ⟨hne, hmap⟩ := hinv2 tb htbmem
    refine ⟨hne, ?_⟩
    intro w' hw'
    have hold := hmap w' hw'
    simp only [Proxy.entryTimeout] at hold ⊢
    have hnotids : w' ∉ idsBefore cutoff p.rpc_timeouts := by
      intro hin
      rw [mem_idsBefore] at hin
      obtain ⟨kv2, hkv2, hw'in⟩ := hin
      have hkv2mem : kv2 ∈ p.rpc_timeouts := (bucketsBefore_sublist _ _).mem hkv2
      obtain ⟨-, hmap2⟩ := hinv2 kv2 hkv2mem
      have hold2 := hmap2 w' hw'in
      simp only [Proxy.entryTimeout] at hold2
      rw [hold] at hold2
      have : kv2.1 = tb.1 := (Option.some.inj hold2).symm
      exact htbnot (this ▸ List.mem_map.mpr ⟨kv2, hkv2, rfl⟩)
    rw [hother w' hnotids]
    exact hold

/-- Shape of `rpc_restore` on a wire id that has an entry, under the table
invariant. -/
theorem rpc_restore_spec {p : Proxy} {w : Nat} {e : RpcMapEntry}
    (hwf : p.rpcWF) (he : alookup p.rpc_map w = some e) :
    ∃ p1, p.rpc_restore w = some (p1, some (e.id, e.client)) ∧
      p1.clients = p.clients ∧ p1.device = p.device ∧
      p1.rpc_map = aremove p.rpc_map w ∧
      p1.events = p.events ++ [.RpcRestore w (e.client, e.id)] ∧
      p1.next_rpc_id = p.next_rpc_id := by
  obtain ⟨-, -, -, hinv1, -⟩ := hwf
  have hold := hinv1 (w, e) (mem_of_alookup he)
  simp only [Proxy.bucketOf] at hold
  unfold Proxy.rpc_restore
  rw [he]
  dsimp only
  cases hbk : alookup p.rpc_timeouts e.timeout with
  | none =>
    rw [hbk] at hold
    simp at hold
  | some ids =>
    dsimp only
    refine ⟨_, rfl, ?_, ?_, ?_, ?_, ?_⟩ <;> simp [Proxy.send_event]

/-- `rpc_restore` on an unknown wire id leaves the state untouched. -/
theorem rpc_restore_none {p : Proxy} {w : Nat}
    (h : alookup p.rpc_map w = none) : p.rpc_restore w = some (p, none) := by
  unfold Proxy.rpc_restore
  rw [h]

/-- Successful `send` of an in-scope RPC-family packet with room in the
queue: the packet is appended with its routing rewritten. -/
theorem send_ok_eq {c : ProxyClient} {pkt : Packet} {rel : DeviceRoute}
    (hrel : c.scope.relative_route pkt.routing = some rel)
    (hfam : rpcFamily pkt.payload = true)
    (hroom : c.tx.length < c.txCap) :
    c.send pkt = ({ c with tx := c.tx ++ [⟨pkt.payload, rel, pkt.ttl⟩] }, .ok) := by
  unfold ProxyClient.send
  rw [hrel]
  have hpass :
      (match pkt.payload with
        | .RpcRequest _ | .RpcReply _ | .RpcError _ => true
        | .StreamData _ => c.forward_data
        | _ => c.forward_nonrpc) = true := by
    cases hpl : pkt.payload <;> simp [rpcFamily, hpl] at hfam ⊢
  simp only [hpass, Bool.not_true, Bool.false_eq_true, if_false, if_pos hroom]

/-- Discriminator for the `StreamData` payload variant (used to state the
forwarding policy). -/
def isStreamData : Payload → Bool
  | .StreamData _ => true
  | _ => false

/-! ### Claim theorems -/

/-- C5: a client's scope-filtered send never delivers a packet whose absolute
route is not inside the client's scope (the client record is returned
unchanged); for an in-scope packet, RpcRequest/RpcReply/RpcError payloads
always pass, StreamData passes only when `forward_data` is set, every other
payload passes only when `forward_nonrpc` is set, and any delivered packet
has its routing rewritten to be relative to the scope. -/
theorem C5_scope_filtered_send (c : ProxyClient) (pkt : Packet) :
    (c.scope.relative_route pkt.routing = none → c.send pkt = (c, .ok)) ∧
    (∀ rel, c.scope.relative_route pkt.routing = some rel →
      ((rpcFamily pkt.payload = true → c.tx.length < c.txCap →
        c.send pkt = ({ c with tx := c.tx ++ [⟨pkt.payload, rel, pkt.ttl⟩] }, .ok)) ∧
      (∀ d, pkt.payload = .StreamData d → c.forward_data = false →
        c.send pkt = (c, .ok)) ∧
      (∀ d, pkt.payload = .StreamData d → c.forward_data = true → c.tx.length < c.txCap →
        c.send pkt = ({ c with tx := c.tx ++ [⟨pkt.payload, rel, pkt.ttl⟩] }, .ok)) ∧
      (rpcFamily pkt.payload = false → isStreamData pkt.payload = false →
        c.forward_nonrpc = false → c.send pkt = (c, .ok)) ∧
      (rpcFamily pkt.payload = false → isStreamData pkt.payload = false →
        c.forward_nonrpc = true → c.tx.length < c.txCap →
        c.send pkt = ({ c with tx := c.tx ++ [⟨pkt.payload, rel, pkt.ttl⟩] }, .ok)))) := by
  refine ⟨fun h => send_rel_none h, ?_⟩
  intro rel hrel
  refine ⟨fun hfam hroom => send_ok_eq hrel hfam hroom, ?_, ?_, ?_, ?_⟩
  · intro d hpl hfd
    unfold ProxyClient.send
    rw [hrel, hpl]
    simp [hfd]
  · intro d hpl hfd hroom
    unfold ProxyClient.send
    rw [hrel, hpl]
    simp [hfd, hroom]
  · intro hfam hns hfn
    unfold ProxyClient.send
    rw [hrel]
    rcases hpl : pkt.payload with req | rep | err | d | hb | o
    · simp [rpcFamily, hpl] at hfam
    · simp [rpcFamily, hpl] at hfam
    · simp [rpcFamily, hpl] at hfam
    · simp [isStreamData, hpl] at hns
    · simp [hfn]
    · simp [hfn]
  · intro hfam hns hfn hroom
    unfold ProxyClient.send
    rw [hrel]
    rcases hpl : pkt.payload with req | rep | err | d | hb | o
    · simp [rpcFamily, hpl] at hfam
    · simp [rpcFamily, hpl] at hfam
    · simp [rpcFamily, hpl] at hfam
    · simp [isStreamData, hpl] at hns
    · simp [hfn, hroom, hpl]
    · simp [hfn, hroom, hpl]

def clientC5 : ProxyClient :=
  { tx := [], txCap := 4, rpc_timeout := 2000, scope := ⟨[0]⟩,
    forward_data := false, forward_nonrpc := false }

def pktOutC5 : Packet := ⟨.RpcReply ⟨1, []⟩, ⟨[5]⟩, 0⟩

def pktRpcC5 : Packet := ⟨.RpcReply ⟨1, []⟩, ⟨[0, 2]⟩, 0⟩

def pktStreamC5 : Packet := ⟨.StreamData [1], ⟨[0]⟩, 0⟩

def pktHbC5 : Packet := ⟨.Heartbeat (.Session 1), ⟨[0]⟩, 0⟩

theorem C5_scope_filtered_send_witness :
    clientC5.send pktOutC5 = (clientC5, .ok) ∧
    clientC5.send pktRpcC5 =
      ({ clientC5 with tx := [⟨.RpcReply ⟨1, []⟩, ⟨[2]⟩, 0⟩] }, .ok) ∧
    clientC5.send pktStreamC5 = (clientC5, .ok) ∧
    clientC5.send pktHbC5 = (clientC5, .ok) := by
  refine ⟨?_, ?_, ?_, ?_⟩
  · exact (C5_scope_filtered_send clientC5 pktOutC5).1 (by decide)
  · exact ((C5_scope_filtered_send clientC5 pktRpcC5).2 ⟨[2]⟩ (by decide)).1 rfl (by decide)
  · exact (((C5_scope_filtered_send clientC5 pktStreamC5).2 ⟨[]⟩ (by decide)).2.1) [1] rfl rfl
  · exact ((C5_scope_filtered_send clientC5 pktHbC5).2 ⟨[]⟩ (by decide)).2.2.2.1 rfl rfl rfl

/-- C7: when the freshly assigned wire id already exists as a key of the
remap table, the proxy returns `RpcError(req.id, OutOfMemory)` scoped to the
original routing to that same client's outbound queue, and both the primary
map and the deadline index are unchanged by the attempt. -/
theorem C7_wire_id_collision (p : Proxy) (now cid : Nat) (pkt : Packet)
    (req : RpcRequestPayload) (c : ProxyClient) (rel : DeviceRoute)
    (hpl : pkt.payload = .RpcRequest req)
    (hcoll : (alookup p.rpc_map p.next_rpc_id).isSome = true)
    (hc : alookup p.clients cid = some c)
    (hrel : c.scope.relative_route pkt.routing = some rel)
    (hroom : c.tx.length < c.txCap) :
    ∃ p', p.handle_client_packet now cid pkt = some p' ∧
      p'.rpc_map = p.rpc_map ∧
      p'.rpc_timeouts = p.rpc_timeouts ∧
      alookup p'.clients cid =
        some { c with tx := c.tx ++ [⟨.RpcError ⟨req.id, .OutOfMemory, []⟩, rel, 0⟩] } ∧
      (∀ cid', cid' ≠ cid → alookup p'.clients cid' = alookup p.clients cid') := by
  unfold Proxy.handle_client_packet Proxy.forward_to_device
  rw [hpl]
  dsimp only
  rw [if_pos hcoll]
  dsimp only
  rw [hc]
  dsimp only
  have hsend : c.send (PacketBuilder.rpc_error pkt.routing req.id .OutOfMemory) =
      ({ c with tx := c.tx ++ [⟨.RpcError ⟨req.id, .OutOfMemory, []⟩, rel, 0⟩] }, .ok) :=
    send_ok_eq hrel rfl hroom
  rw [hsend]
  dsimp only
  refine ⟨_, rfl, rfl, rfl, ?_, ?_⟩
  · rw [alookup_aupdate, if_pos rfl, hc]
    rfl
  · intro cid' hq
    rw [alookup_aupdate, if_neg hq]

def entryW7 : RpcMapEntry := ⟨12, 1, ⟨[]⟩, 50⟩

def clientW7 : ProxyClient := ⟨[], 4, 2000, ⟨[]⟩, true, true⟩

def proxyW7 : Proxy :=
  ⟨[(1, clientW7)], none, 2, 0, [(0, entryW7)], [(50, [0])], []⟩

def pktW7 : Packet := ⟨.RpcRequest ⟨9, .Name "x", []⟩, ⟨[]⟩, 0⟩

theorem C7_wire_id_collision_witness :
    (Proxy.handle_client_packet proxyW7 100 1 pktW7).map Proxy.rpc_map =
      some proxyW7.rpc_map ∧
    (Proxy.handle_client_packet proxyW7 100 1 pktW7).map Proxy.rpc_timeouts =
      some proxyW7.rpc_timeouts := by
  obtain ⟨p', h1, h2, h3, -, -⟩ :=
    C7_wire_id_collision proxyW7 100 1 pktW7 ⟨9, .Name "x", []⟩ clientW7 ⟨[]⟩ rfl
      (by decide) (by decide) (by decide) (by decide)
  rw [h1]
  simp [h2, h3]

/-- C9: handling a reply to an internal RPC extracts exactly the first four
bytes of the reply payload with an unguarded slice: for any payload shorter
than 4 bytes the failure (panic) branch is reached, and for a payload of at
least 4 bytes the result depends only on the first four bytes. -/
theorem C9_internal_reply_unguarded_slice (p : Proxy) (rep : RpcReplyPayload) :
    (rep.reply.length < 4 → p.internal_rpc_reply rep = none) ∧
    (4 ≤ rep.reply.length →
      p.internal_rpc_reply rep = p.internal_rpc_reply ⟨rep.id, rep.reply.take 4⟩) := by
  obtain ⟨rid, reply⟩ := rep
  constructor
  · intro hlen
    rcases reply with - | ⟨b0, - | ⟨b1, - | ⟨b2, - | ⟨b3, rest⟩⟩⟩⟩
    · rfl
    · rfl
    · rfl
    · rfl
    · simp only [List.length_cons, List.length_nil] at hlen
      omega
  · intro hlen
    rcases reply with - | ⟨b0, - | ⟨b1, - | ⟨b2, - | ⟨b3, rest⟩⟩⟩⟩
    · simp only [List.length_cons, List.length_nil] at hlen
      omega
    · simp only [List.length_cons, List.length_nil] at hlen
      omega
    · simp only [List.length_cons, List.length_nil] at hlen
      omega
    · simp only [List.length_cons, List.length_nil] at hlen
      omega
    · rfl

def proxyW9 : Proxy := ⟨[], none, 1, 0, [], [], []⟩

theorem C9_internal_reply_unguarded_slice_witness :
    Proxy.internal_rpc_reply proxyW9 ⟨1, [1, 2]⟩ = none ∧
    Proxy.internal_rpc_reply proxyW9 ⟨1, [1, 0, 0, 0, 5]⟩ =
      Proxy.internal_rpc_reply proxyW9 ⟨1, [1, 0, 0, 0]⟩ := by
  refine ⟨(C9_internal_reply_unguarded_slice proxyW9 ⟨1, [1, 2]⟩).1 (by decide), ?_⟩
  have h := (C9_internal_reply_unguarded_slice proxyW9 ⟨1, [1, 0, 0, 0, 5]⟩).2 (by decide)
  simpa using h

theorem toLeBytes_length (w v : Nat) : (toLeBytes w v).length = w := by
  induction w generalizing v with
  | zero => rfl
  | succ w ih => simp [toLeBytes, ih]

theorem fromLeBytes_toLeBytes {w v : Nat} (h : v < 2 ^ (8 * w)) :
    fromLeBytes (toLeBytes w v) = v := by
  induction w generalizing v with
  | zero =>
    simp only [toLeBytes, fromLeBytes]
    rw [show 8 * 0 = 0 from rfl, pow_zero] at h
    omega
  | succ w ih =>
    have hp : 2 ^ (8 * (w + 1)) = 2 ^ (8 * w) * 256 := by
      rw [show 8 * (w + 1) = 8 * w + 8 from by ring, pow_add]
      norm_num
    have h2 : v / 256 < 2 ^ (8 * w) := by
      rw [Nat.div_lt_iff_lt_mul (by norm_num : 0 < 256)]
      omega
    simp only [toLeBytes, fromLeBytes, ih h2]
    omega

/-- C10: for every fixed-size integer primitive, `from_reply(to_request(v))`
returns `Ok(v)`; `from_reply` fails on a buffer shorter than the primitive's
byte size and on any buffer with trailing bytes after the value.  Stated for
a `w`-byte little-endian primitive, unsigned (`Nat`) and two's-complement
signed (`Int`); the program instantiates `w ∈ {1,2,4,8}`. -/
theorem C10_primitive_roundtrip :
    (∀ w v : Nat, v < 2 ^ (8 * w) → from_reply_u w (to_request_u w v) = some v) ∧
    (∀ (w : Nat) (v : Int), 1 ≤ w → -(2 ^ (8 * w - 1) : Int) ≤ v →
      v < 2 ^ (8 * w - 1) → from_reply_i w (to_request_i w v) = some v) ∧
    (∀ (w : Nat) (reply : List Nat), reply.length < w →
      from_reply_u w reply = none ∧ from_reply_i w reply = none) ∧
    (∀ (w : Nat) (reply : List Nat), w < reply.length →
      from_reply_u w reply = none ∧ from_reply_i w reply = none) := by
  have hulen : ∀ w v : Nat, ¬ (toLeBytes w v).length < w := by
    intro w v
    rw [toLeBytes_length]
    omega
  have htake : ∀ w v : Nat, (toLeBytes w v).take w = toLeBytes w v := by
    intro w v
    have h0 := List.take_length (toLeBytes w v)
    rwa [toLeBytes_length] at h0
  have hdrop : ∀ w v : Nat, (toLeBytes w v).drop w = [] := by
    intro w v
    have h0 := List.drop_length (toLeBytes w v)
    rwa [toLeBytes_length] at h0
  refine ⟨?_, ?_, ?_, ?_⟩
  · intro w v hv
    unfold from_reply_u from_reply_prefix_u to_request_u
    rw [if_neg (hulen w v)]
    dsimp only
    rw [htake, hdrop, fromLeBytes_toLeBytes hv]
    rfl
  · intro w v hw hlo hhi
    unfold from_reply_i from_reply_prefix_i to_request_i intOfBits
    rw [if_neg (hulen w _)]
    dsimp only
    rw [htake, hdrop]
    have hNK : 2 ^ (8 * w) = 2 * 2 ^ (8 * w - 1) := by
      rw [← pow_succ']
      congr 1
      omega
    have hcast : ((2 : Int) ^ (8 * w)) = ((2 ^ (8 * w) : Nat) : Int) := by
      push_cast
      ring
    have hcastK : ((2 : Int) ^ (8 * w - 1)) = ((2 ^ (8 * w - 1) : Nat) : Int) := by
      push_cast
      ring
    have hNKz : ((2 ^ (8 * w) : Nat) : Int) = 2 * ((2 ^ (8 * w - 1) : Nat) : Int) := by
      exact_mod_cast hNK
    rw [hcastK] at hlo hhi
    rcases le_or_lt 0 v with hv0 | hv0
    · have hmod : v % (2 : Int) ^ (8 * w) = v := by
        apply Int.emod_eq_of_lt hv0
        rw [hcast]
        omega
      rw [hmod]
      have hn : v.toNat < 2 ^ (8 * w) := by omega
      rw [fromLeBytes_toLeBytes hn]
      rw [if_pos (by omega : v.toNat < 2 ^ (8 * w - 1))]
      have hfin : ((v.toNat : Int)) = v := by omega
      simp [hfin]
    · have hmod : v % (2 : Int) ^ (8 * w) = v + (2 : Int) ^ (8 * w) := by
        have h1 : (v + (2 : Int) ^ (8 * w) * 1) % (2 : Int) ^ (8 * w) =
            v % (2 : Int) ^ (8 * w) := Int.add_mul_emod_self_left v ((2 : Int) ^ (8 * w)) 1
        rw [mul_one] at h1
        rw [← h1]
        apply Int.emod_eq_of_lt
        · rw [hcast]
          omega
        · rw [hcast]
          omega
      rw [hmod]
      have hn : (v + (2 : Int) ^ (8 * w)).toNat < 2 ^ (8 * w) := by
        rw [hcast]
        omega
      rw [fromLeBytes_toLeBytes hn]
      rw [if_neg (by rw [hcast]; omega :
        ¬ (v + (2 : Int) ^ (8 * w)).toNat < 2 ^ (8 * w - 1))]
      have hfin : (((v + (2 : Int) ^ (8 * w)).toNat : Int)) - (2 : Int) ^ (8 * w) = v := by
        rw [hcast]
        omega
      simp [hfin]
      rw [hcast]
      omega
  · intro w reply hlen
    constructor
    · unfold from_reply_u from_reply_prefix_u
      rw [if_pos hlen]
    · unfold from_reply_i from_reply_prefix_i
      rw [if_pos hlen]
  · intro w reply hlen
    constructor
    · unfold from_reply_u from_reply_prefix_u
      rw [if_neg (by omega)]
      dsimp only
      rw [if_neg (by rw [List.length_drop]; omega)]
    · unfold from_reply_i from_reply_prefix_i
      rw [if_neg (by omega)]
      dsimp only
      rw [if_neg (by rw [List.length_drop]; omega)]

theorem u32_from_le_lt (b0 b1 b2 b3 : Nat) : u32_from_le b0 b1 b2 b3 < 4294967296 := by
  unfold u32_from_le
  omega

/-- For `u32` operands the exact integer embedding of the f64 comparison in
`internal_rpc_reply` agrees with the exact rational comparison
`|target - value| / value > 3/200` (no `u32` pair falls between the f64
rounding boundary and `3/200`). -/
theorem rateErrorExceeds_iff {target value : Nat} (hv : value < 4294967296) :
    rateErrorExceeds target value = true ↔
      200 * (max target value - min target value) > 3 * value := by
  unfold rateErrorExceeds
  rw [decide_eq_true_eq]
  constructor
  · intro h
    rcases Nat.le_total target value with hc | hc
    · rw [Nat.max_eq_right hc, Nat.min_eq_left hc] at h ⊢
      omega
    · rw [Nat.max_eq_left hc, Nat.min_eq_right hc] at h ⊢
      omega
  · intro h
    rcases Nat.le_total target value with hc | hc
    · rw [Nat.max_eq_right hc, Nat.min_eq_left hc] at h ⊢
      omega
    · rw [Nat.max_eq_left hc, Nat.min_eq_right hc] at h ⊢
      omega

theorem C10_primitive_roundtrip_witness :
    from_reply_u 4 (to_request_u 4 305419896) = some 305419896 ∧
    from_reply_i 2 (to_request_i 2 (-2)) = some (-2) ∧
    from_reply_u 4 [1, 2, 3] = none ∧
    from_reply_i 8 [1, 2, 3, 4, 5, 6, 7, 8, 9] = none := by
  obtain ⟨h1, h2, h3, h4⟩ := C10_primitive_roundtrip
  exact ⟨h1 4 305419896 (by norm_num), h2 2 (-2) (by norm_num) (by norm_num) (by norm_num),
    (h3 4 [1, 2, 3] (by norm_num)).1, (h4 8 [1, 2, 3, 4, 5, 6, 7, 8, 9] (by norm_num)).2⟩

/-- C8: in FSM state `WaitingDeviceRate`, an internal reply with value 0
emits `AutoRateIncompatible(0)` then `AutoRateGaveUp` and moves to `GaveUp`;
a nonzero value with relative error `|target - value| / value` strictly above
`0.015` (exactly: `200 * |target - value| > 3 * value`) emits
`AutoRateIncompatible(value)` then `AutoRateGaveUp` and moves to `GaveUp`;
otherwise `AutoRateCompatible(value)` is emitted and the FSM moves to
`SetDeviceRate`; an internal RPC error moves the FSM to `GaveUp`. -/
theorem C8_autorate_reply_branches (p : Proxy) (dev : ProxyDevice) (ri : RateInfo)
    (rep : RpcReplyPayload) (b0 b1 b2 b3 : Nat) (rest : List Nat)
    (hdev : p.device = some dev)
    (hri : dev.rate_info = some ri)
    (hstate : dev.rate_change_state = .WaitingDeviceRate)
    (hreply : rep.reply = b0 :: b1 :: b2 :: b3 :: rest) :
    (u32_from_le b0 b1 b2 b3 = 0 →
      ∃ p', p.internal_rpc_reply rep = some p' ∧
        p'.events = p.events ++ [.AutoRateIncompatible 0, .AutoRateGaveUp] ∧
        p'.device = some { dev with rate_change_state := .GaveUp }) ∧
    (∀ value : Nat, u32_from_le b0 b1 b2 b3 = value → value ≠ 0 →
      200 * (max ri.target_bps value - min ri.target_bps value) > 3 * value →
      ∃ p', p.internal_rpc_reply rep = some p' ∧
        p'.events = p.events ++ [.AutoRateIncompatible value, .AutoRateGaveUp] ∧
        p'.device = some { dev with rate_change_state := .GaveUp }) ∧
    (∀ value : Nat, u32_from_le b0 b1 b2 b3 = value → value ≠ 0 →
      200 * (max ri.target_bps value - min ri.target_bps value) ≤ 3 * value →
      ∃ p', p.internal_rpc_reply rep = some p' ∧
        p'.events = p.events ++ [.AutoRateCompatible value] ∧
        p'.device = some { dev with rate_change_state := .SetDeviceRate }) ∧
    (∀ err : RpcErrorPayload,
      (p.internal_rpc_error err).device = some { dev with rate_change_state := .GaveUp } ∧
      (p.internal_rpc_error err).events =
        p.events ++ [.AutoRateRpcError err.error, .AutoRateGaveUp]) := by
  obtain ⟨rid, reply⟩ := rep
  simp only at hreply
  subst hreply
  refine ⟨?_, ?_, ?_, ?_⟩
  · intro h0
    unfold Proxy.internal_rpc_reply
    dsimp only
    rw [hdev]
    dsimp only
    rw [hri]
    dsimp only
    rw [hstate]
    dsimp only
    rw [if_pos h0]
    exact ⟨_, rfl, by simp [Proxy.send_event], rfl⟩
  · intro value hval hne hgt
    subst hval
    unfold Proxy.internal_rpc_reply
    dsimp only
    rw [hdev]
    dsimp only
    rw [hri]
    dsimp only
    rw [hstate]
    dsimp only
    rw [if_neg hne]
    rw [if_pos ((rateErrorExceeds_iff (u32_from_le_lt b0 b1 b2 b3)).mpr hgt)]
    exact ⟨_, rfl, by simp [Proxy.send_event], rfl⟩
  · intro value hval hne hle
    subst hval
    unfold Proxy.internal_rpc_reply
    dsimp only
    rw [hdev]
    dsimp only
    rw [hri]
    dsimp only
    rw [hstate]
    dsimp only
    rw [if_neg hne]
    rw [if_neg (fun hx => by
      have := (rateErrorExceeds_iff (u32_from_le_lt b0 b1 b2 b3)).mp hx
      omega)]
    exact ⟨_, rfl, by simp [Proxy.send_event], rfl⟩
  · intro err
    unfold Proxy.internal_rpc_error
    simp only [Proxy.send_event]
    rw [hdev]
    dsimp only
    exact ⟨rfl, by simp [Proxy.send_event]⟩

def devW8 : ProxyDevice :=
  ⟨[], true, true, some ⟨250000, 115200⟩, .WaitingDeviceRate, 0, 0⟩

def proxyW8 : Proxy := ⟨[], some devW8, 1, 0, [], [], []⟩

theorem C8_autorate_reply_branches_witness :
    (Proxy.internal_rpc_reply proxyW8 ⟨0, [168, 204, 3, 0]⟩).map Proxy.events =
      some [Event.AutoRateCompatible 249000] ∧
    (Proxy.internal_rpc_reply proxyW8 ⟨0, [64, 13, 3, 0]⟩).map Proxy.events =
      some [Event.AutoRateIncompatible 200000, Event.AutoRateGaveUp] := by
  constructor
  · obtain ⟨p', h1, h2, -⟩ :=
      (C8_autorate_reply_branches proxyW8 devW8 ⟨250000, 115200⟩ ⟨0, [168, 204, 3, 0]⟩
        168 204 3 0 [] rfl rfl rfl rfl).2.2.1 249000 (by decide) (by decide) (by decide)
    rw [h1]
    simp [h2, proxyW8]
  · obtain ⟨p', h1, h2, -⟩ :=
      (C8_autorate_reply_branches proxyW8 devW8 ⟨250000, 115200⟩ ⟨0, [64, 13, 3, 0]⟩
        64 13 3 0 [] rfl rfl rfl rfl).2.1 200000 (by decide) (by decide) (by decide)
    rw [h1]
    simp [h2, proxyW8]

def pktStreamC6 : Packet := ⟨.StreamData [7], ⟨[]⟩, 0⟩

def clientFullC6 : ProxyClient :=
  ⟨List.replicate 256 pktStreamC6, 256, 2000, ⟨[]⟩, true, true⟩

def clientOtherC6 : ProxyClient := ⟨[], 256, 2000, ⟨[]⟩, true, true⟩

def proxyC6 : Proxy :=
  ⟨[(1, clientFullC6), (2, clientOtherC6)], none, 3, 0, [], [], []⟩

set_option maxRecDepth 16384

/-- C6 (code bug): when a device-originated non-RPC packet is fanned out and
some client's outbound bounded queue is full (256 packets queued), the code's
`client.send(&pkt).unwrap()` panics the proxy thread — modelled as the `none`
outcome — instead of dropping the packet for that client only and continuing
to serve the other clients, which is what the spec prescribes.  The first
conjunct shows the failure is exactly the `try_send`-full outcome of the
scope-filtered send. -/
theorem C6_full_queue_fanout_panics :
    clientFullC6.send pktStreamC6 = (clientFullC6, .full) ∧
    Proxy.handle_device_packet proxyC6 pktStreamC6 = none := by
  constructor
  · decide
  · decide

/-- C1: an RpcReply or RpcError from the device whose wire id has a remap
entry for client C with original id r is delivered, with its id rewritten
back to r, to exactly client C's outbound queue (all other clients'
registrations are untouched), and the wire id's remap entry is removed; a
reply or error whose wire id has no remap entry is delivered to no client
(the state is returned unchanged). -/
theorem C1_rpc_reply_restore (p : Proxy) (pkt : Packet) (hwf : p.rpcWF) :
    (∀ (rep : RpcReplyPayload) (e : RpcMapEntry) (c : ProxyClient) (rel : DeviceRoute),
      pkt.payload = .RpcReply rep →
      alookup p.rpc_map rep.id = some e →
      alookup p.clients e.client = some c →
      c.scope.relative_route pkt.routing = some rel →
      c.tx.length < c.txCap →
      ∃ p', p.handle_device_packet pkt = some p' ∧
        alookup p'.clients e.client =
          some { c with tx := c.tx ++ [⟨.RpcReply { rep with id := e.id }, rel, pkt.ttl⟩] } ∧
        (∀ cid, cid ≠ e.client → alookup p'.clients cid = alookup p.clients cid) ∧
        alookup p'.rpc_map rep.id = none) ∧
    (∀ (err : RpcErrorPayload) (e : RpcMapEntry) (c : ProxyClient) (rel : DeviceRoute),
      pkt.payload = .RpcError err →
      alookup p.rpc_map err.id = some e →
      alookup p.clients e.client = some c →
      c.scope.relative_route pkt.routing = some rel →
      c.tx.length < c.txCap →
      ∃ p', p.handle_device_packet pkt = some p' ∧
        alookup p'.clients e.client =
          some { c with tx := c.tx ++ [⟨.RpcError { err with id := e.id }, rel, pkt.ttl⟩] } ∧
        (∀ cid, cid ≠ e.client → alookup p'.clients cid = alookup p.clients cid) ∧
        alookup p'.rpc_map err.id = none) ∧
    (∀ rep : RpcReplyPayload, pkt.payload = .RpcReply rep →
      alookup p.rpc_map rep.id = none → p.handle_device_packet pkt = some p) ∧
    (∀ err : RpcErrorPayload, pkt.payload = .RpcError err →
      alookup p.rpc_map err.id = none → p.handle_device_packet pkt = some p) := by
  refine ⟨?_, ?_, ?_, ?_⟩
  · intro rep e c rel hpl he hc hrel hroom
    obtain ⟨p1, hres, hcl1, hdev1, hmap1, hev1, -⟩ := rpc_restore_spec hwf he
    unfold Proxy.handle_device_packet
    rw [hpl]
    dsimp only
    rw [hres]
    dsimp only
    rw [hcl1, hc]
    dsimp only
    have hrel' : c.scope.relative_route
        ({ pkt with payload := .RpcReply { rep with id := e.id } } : Packet).routing =
        some rel := hrel
    have hsend := send_ok_eq hrel' (by rfl) hroom
    rw [hsend]
    dsimp only
    refine ⟨_, rfl, ?_, ?_, ?_⟩
    · rw [alookup_aupdate, if_pos rfl, hc]
      rfl
    · intro cid hq
      rw [alookup_aupdate, if_neg hq]
    · show alookup p1.rpc_map _ = none
      rw [hmap1, alookup_aremove, if_pos rfl]
  · intro err e c rel hpl he hc hrel hroom
    obtain ⟨p1, hres, hcl1, hdev1, hmap1, hev1, -⟩ := rpc_restore_spec hwf he
    unfold Proxy.handle_device_packet
    rw [hpl]
    dsimp only
    rw [hres]
    dsimp only
    rw [hcl1, hc]
    dsimp only
    have hrel' : c.scope.relative_route
        ({ pkt with payload := .RpcError { err with id := e.id } } : Packet).routing =
        some rel := hrel
    have hsend := send_ok_eq hrel' (by rfl) hroom
    rw [hsend]
    dsimp only
    refine ⟨_, rfl, ?_, ?_, ?_⟩
    · rw [alookup_aupdate, if_pos rfl, hc]
      rfl
    · intro cid hq
      rw [alookup_aupdate, if_neg hq]
    · show alookup p1.rpc_map _ = none
      rw [hmap1, alookup_aremove, if_pos rfl]
  · intro rep hpl he
    unfold Proxy.handle_device_packet
    rw [hpl]
    dsimp only
    rw [rpc_restore_none he]
  · intro err hpl he
    unfold Proxy.handle_device_packet
    rw [hpl]
    dsimp only
    rw [rpc_restore_none he]

def proxyW1 : Proxy :=
  ⟨[(1, clientW7)], none, 2, 0, [(3, ⟨7, 1, ⟨[]⟩, 50⟩)], [(50, [3])], []⟩

def pktW1 : Packet := ⟨.RpcReply ⟨3, [9]⟩, ⟨[]⟩, 0⟩

theorem C1_rpc_reply_restore_witness :
    (Proxy.handle_device_packet proxyW1 pktW1).map (fun q => alookup q.clients 1) =
      some (some { clientW7 with tx := [⟨.RpcReply ⟨7, [9]⟩, ⟨[]⟩, 0⟩] }) ∧
    (Proxy.handle_device_packet proxyW1 pktW1).map (fun q => alookup q.rpc_map 3) =
      some none := by
  obtain ⟨p', h1, h2, -, h4⟩ :=
    (C1_rpc_reply_restore proxyW1 pktW1 (by decide)).1 ⟨3, [9]⟩ ⟨7, 1, ⟨[]⟩, 50⟩ clientW7
      ⟨[]⟩ rfl (by decide) (by decide) (by decide) (by decide)
  rw [h1]
  constructor
  · simp only [Option.map]
    rw [h2]
    simp [clientW7, pktW1]
  · simp only [Option.map]
    rw [h4]

/-- C2: after each remap-table-mutating operation completes (forwarding a
request to the device, restoring a reply or error, sweeping timeouts), a wire
id is a key of the primary map `rpc_map` iff it is a member of the
deadline-index set `rpc_timeouts` stored under that entry's deadline, and the
deadline index contains no empty set (`rpcWF` bundles this invariant with the
representation well-formedness of the embedding). -/
theorem C2_remap_table_invariant (p : Proxy) (hwf : p.rpcWF) :
    (∀ (now : Nat) (pkt : Packet) (cid : Nat) (p' : Proxy) (ret : Option Packet),
      p.forward_to_device now pkt cid = some (p', ret) → p'.rpcWF) ∧
    (∀ (w : Nat) (p' : Proxy) (r : Option (Nat × Nat)),
      p.rpc_restore w = some (p', r) → p'.rpcWF) ∧
    (∀ (cutoff : Nat) (error : RpcErrorCode) (p' : Proxy),
      p.dispatch_rpc_timeouts cutoff error = some p' → p'.rpcWF) :=
  ⟨fun _ _ _ _ _ h => rpcWF_forward_to_device hwf h,
   fun _ _ _ h => rpcWF_rpc_restore hwf h,
   fun _ _ _ h => rpcWF_dispatch_rpc_timeouts hwf h⟩

def devW2 : ProxyDevice := ⟨[], true, true, none, .DoNothing, 0, 0⟩

def clientW2 : ProxyClient := ⟨[], 4, 2000, ⟨[]⟩, true, true⟩

def proxyW2 : Proxy := ⟨[(1, clientW2)], some devW2, 2, 11, [], [], []⟩

def pktW2 : Packet := ⟨.RpcRequest ⟨5, .Name "a", []⟩, ⟨[]⟩, 0⟩

def proxyW2' : Proxy :=
  ⟨[(1, clientW2)],
   some { devW2 with sent := [⟨.RpcRequest ⟨11, .Name "a", []⟩, ⟨[]⟩, 0⟩] },
   2, 12, [(11, ⟨5, 1, ⟨[]⟩, 2100⟩)], [(2100, [11])], [.RpcRemap (1, 5) 11]⟩

theorem C2_remap_table_invariant_witness :
    Proxy.forward_to_device proxyW2 100 pktW2 1 = some (proxyW2', none) ∧
    proxyW2'.rpcWF := by
  have h : Proxy.forward_to_device proxyW2 100 pktW2 1 = some (proxyW2', none) := by decide
  exact ⟨h, (C2_remap_table_invariant proxyW2 (by decide)).1 100 pktW2 1 proxyW2' none h⟩

def entryC3 : RpcMapEntry := ⟨9, 1, ⟨[]⟩, 5⟩

def clientC3 : ProxyClient := ⟨[], 4, 2000, ⟨[]⟩, true, true⟩

def proxyC3 : Proxy :=
  ⟨[(1, clientC3)], none, 2, 0, [(4, entryC3)], [(5, [4])], []⟩

/-- C3 counterexample: with a single remap entry whose deadline is exactly
`now = 5` (so `deadline ≤ now` holds), the sweep leaves the remap table, the
deadline index, and every client queue untouched: the walk stops at the first
deadline `≥ now`, so an entry with `deadline = now` is not removed, refuting
the claim as stated. -/
theorem C3_timeout_sweep_counterexample :
    Proxy.process_rpc_timeouts proxyC3 5 = some (proxyC3, 1) ∧
    alookup proxyC3.rpc_map 4 = some entryC3 ∧ entryC3.timeout ≤ 5 :=
  ⟨by decide, by decide, by decide⟩

/-- C3 (amended): the timeout sweep taken at time `now` removes from the
remap table every entry whose deadline is strictly earlier than `now`, emits
`RpcTimeout(wire_id)` for each such entry, and enqueues a synthetic
`RpcError(original id, Timeout)` to the originating client's outbound queue
using the stored route when that client is still registered (and in scope,
with room in its queue); entries with deadline `≥ now` are untouched, and the
client registry itself is unchanged (a vanished client is silently
skipped). -/
theorem C3_timeout_sweep (p : Proxy) (now : Nat) (p' : Proxy) (d : Nat)
    (hwf : p.rpcWF) (h : p.process_rpc_timeouts now = some (p', d)) :
    (∀ w e, alookup p.rpc_map w = some e → e.timeout < now →
      alookup p'.rpc_map w = none ∧ Event.RpcTimeout w ∈ p'.events ∧
      (∀ c rel, alookup p.clients e.client = some c →
        c.scope.relative_route e.route = some rel →
        ∃ c', alookup p'.clients e.client = some c' ∧
          (⟨.RpcError ⟨e.id, .Timeout, []⟩, rel, 0⟩ : Packet) ∈ c'.tx)) ∧
    (∀ w e, alookup p.rpc_map w = some e → now ≤ e.timeout →
      alookup p'.rpc_map w = some e ∧ w ∈ p'.bucketOf e.timeout) ∧
    (∀ cid, (alookup p'.clients cid).isSome = (alookup p.clients cid).isSome) := by
  obtain ⟨hnd, hsort, hbnd, hinv1, hinv2⟩ := hwf
  unfold Proxy.process_rpc_timeouts at h
  split at h
  · cases h
  · rename_i p1 hdisp
    have hp1 : p1 = p' := by
      split at h <;> (injection h with h; rw [Prod.mk.injEq] at h; exact h.1)
    subst hp1
    unfold Proxy.dispatch_rpc_timeouts at hdisp
    obtain ⟨ht, -, -, hsub, hnone, hother, hcls, -, htout⟩ :=
      dispatchGo_spec .Timeout now p.rpc_timeouts [] p _ hdisp
    rw [List.nil_append] at ht
    refine ⟨?_, ?_, ?_⟩
    · intro w e he hlt
      have hold := hinv1 (w, e) (mem_of_alookup he)
      simp only [Proxy.bucketOf] at hold
      cases hbk : alookup p.rpc_timeouts e.timeout with
      | none =>
        rw [hbk] at hold
        simp at hold
      | some b =>
        rw [hbk] at hold
        simp only [Option.getD_some] at hold
        have hin : w ∈ idsBefore now p.rpc_timeouts :=
          mem_idsBefore.mpr
            ⟨(e.timeout, b), sorted_mem_bucketsBefore hsort (mem_of_alookup hbk) hlt, hold⟩
        refine ⟨hnone w hin, htout w hin, ?_⟩
        intro c rel hc hrel
        exact dispatchGo_delivers .Timeout now p.rpc_timeouts [] p _ hdisp w hin e he c hc
          rel hrel
    · intro w e he hge
      have hnotin : w ∉ idsBefore now p.rpc_timeouts := by
        intro hin
        rw [mem_idsBefore] at hin
        obtain ⟨kv, hkv, hw⟩ := hin
        have hkvmem : kv ∈ p.rpc_timeouts := (bucketsBefore_sublist _ _).mem hkv
        obtain ⟨-, hmap2⟩ := hinv2 kv hkvmem
        have hlt2 : kv.1 < now :=
          mem_keysBefore_lt (List.mem_map.mpr ⟨kv, hkv, rfl⟩)
        have hold2 := hmap2 w hw
        simp only [Proxy.entryTimeout, he] at hold2
        simp only [Option.map_some'] at hold2
        have : e.timeout = kv.1 := Option.some.inj hold2
        omega
      refine ⟨by rw [hother w hnotin]; exact he, ?_⟩
      have hold := hinv1 (w, e) (mem_of_alookup he)
      simp only [Proxy.bucketOf] at hold ⊢
      have hkeynot : e.timeout ∉ keysBefore now p.rpc_timeouts := by
        intro hin
        have := mem_keysBefore_lt hin
        omega
      rw [ht, alookup_removeKeys, if_neg hkeynot]
      exact hold
    · intro cid
      cases hc : alookup p.clients cid with
      | none => rw [hcls.1 cid hc]
      | some c =>
        obtain ⟨c', hc', -⟩ := hcls.2 cid c hc
        rw [hc']
        rfl

def clientW3 : ProxyClient := ⟨[], 4, 2000, ⟨[]⟩, true, true⟩

def proxyW3 : Proxy :=
  ⟨[(1, clientW3)], none, 2, 0, [(4, ⟨9, 1, ⟨[]⟩, 5⟩)], [(5, [4])], []⟩

def proxyW3' : Proxy :=
  ⟨[(1, { clientW3 with tx := [⟨.RpcError ⟨9, .Timeout, []⟩, ⟨[]⟩, 0⟩] })],
   none, 2, 0, [], [], [.RpcTimeout 4]⟩

theorem C3_timeout_sweep_witness :
    Proxy.process_rpc_timeouts proxyW3 6 = some (proxyW3', 60000) ∧
    alookup proxyW3'.rpc_map 4 = none ∧ Event.RpcTimeout 4 ∈ proxyW3'.events := by
  have h : Proxy.process_rpc_timeouts proxyW3 6 = some (proxyW3', 60000) := by decide
  obtain ⟨ha, -, -⟩ := C3_timeout_sweep proxyW3 6 proxyW3' 60000 (by decide) h
  obtain ⟨h1, h2, -⟩ := ha 4 ⟨9, 1, ⟨[]⟩, 5⟩ (by decide) (by decide)
  exact ⟨h, h1, h2⟩

/-- C4: when the device is absent, `cancel_active_rpcs` cancels every RPC
still outstanding in the remap table: every entry is removed from the primary
map and the deadline index becomes empty, and each originating client that is
still registered (and in scope, with room in its queue) receives
`RpcError(original id, Undefined)` — not `Timeout`; the hypothesis that every
deadline lies below the 1000 s cancellation horizon reflects that deadlines
are at most 60 s after insertion. -/
theorem C4_device_loss_cancels (p : Proxy) (now : Nat) (p' : Proxy)
    (hwf : p.rpcWF)
    (hdl : ∀ kv ∈ p.rpc_map, kv.2.timeout < now + 1000000)
    (h : p.cancel_active_rpcs now = some p') :
    (∀ w, alookup p'.rpc_map w = none) ∧
    p'.rpc_timeouts = [] ∧
    (∀ w e, alookup p.rpc_map w = some e →
      ∀ c rel, alookup p.clients e.client = some c →
        c.scope.relative_route e.route = some rel →
        ∃ c', alookup p'.clients e.client = some c' ∧
          (⟨.RpcError ⟨e.id, .Undefined, []⟩, rel, 0⟩ : Packet) ∈ c'.tx) := by
  obtain ⟨hnd, hsort, hbnd, hinv1, hinv2⟩ := hwf
  unfold Proxy.cancel_active_rpcs Proxy.dispatch_rpc_timeouts at h
  obtain ⟨ht, -, -, hsub, hnone, hother, hcls, -, htout⟩ :=
    dispatchGo_spec .Undefined (now + 1000000) p.rpc_timeouts [] p p' h
  rw [List.nil_append] at ht
  have hmem_before : ∀ w e, alookup p.rpc_map w = some e →
      w ∈ idsBefore (now + 1000000) p.rpc_timeouts := by
    intro w e he
    have hold := hinv1 (w, e) (mem_of_alookup he)
    simp only [Proxy.bucketOf] at hold
    cases hbk : alookup p.rpc_timeouts e.timeout with
    | none =>
      rw [hbk] at hold
      simp at hold
    | some b =>
      rw [hbk] at hold
      simp only [Option.getD_some] at hold
      have hlt : e.timeout < now + 1000000 := hdl (w, e) (mem_of_alookup he)
      exact mem_idsBefore.mpr
        ⟨(e.timeout, b), sorted_mem_bucketsBefore hsort (mem_of_alookup hbk) hlt, hold⟩
  refine ⟨?_, ?_, ?_⟩
  · intro w
    cases hcase : alookup p.rpc_map w with
    | none =>
      by_cases hin : w ∈ idsBefore (now + 1000000) p.rpc_timeouts
      · exact hnone w hin
      · rw [hother w hin]
        exact hcase
    | some e => exact hnone w (hmem_before w e hcase)
  · rw [List.eq_nil_iff_forall_not_mem]
    intro kv hkv
    rw [ht, mem_removeKeys] at hkv
    obtain ⟨hkvmem, hkvnot⟩ := hkv
    obtain ⟨hne, hmap2⟩ := hinv2 kv hkvmem
    obtain ⟨w, hw⟩ := List.exists_mem_of_ne_nil kv.2 hne
    have hold2 := hmap2 w hw
    simp only [Proxy.entryTimeout] at hold2
    cases hwe : alookup p.rpc_map w with
    | none =>
      rw [hwe] at hold2
      cases hold2
    | some e =>
      rw [hwe] at hold2
      simp only [Option.map_some'] at hold2
      have hteq : e.timeout = kv.1 := Option.some.inj hold2
      have hlt : kv.1 < now + 1000000 := by
        have h5 : e.timeout < now + 1000000 := hdl (w, e) (mem_of_alookup hwe)
        omega
      have hbk2 : alookup p.rpc_timeouts kv.1 = some kv.2 :=
        alookup_of_mem_nodup (sorted_keys_nodup hsort)
          (show (kv.1, kv.2) ∈ p.rpc_timeouts by simpa using hkvmem)
      exact hkvnot (List.mem_map.mpr
        ⟨(kv.1, kv.2), sorted_mem_bucketsBefore hsort (by simpa using hkvmem) hlt, rfl⟩)
  · intro w e he c rel hc hrel
    exact dispatchGo_delivers .Undefined (now + 1000000) p.rpc_timeouts [] p p' h w
      (hmem_before w e he) e he c hc rel hrel

def clientW4 : ProxyClient := ⟨[], 4, 2000, ⟨[]⟩, true, true⟩

def proxyW4 : Proxy :=
  ⟨[(1, clientW4)], none, 2, 0, [(4, ⟨9, 1, ⟨[]⟩, 5⟩)], [(5, [4])], []⟩

def proxyW4' : Proxy :=
  ⟨[(1, { clientW4 with tx := [⟨.RpcError ⟨9, .Undefined, []⟩, ⟨[]⟩, 0⟩] })],
   none, 2, 0, [], [], [.RpcTimeout 4]⟩

theorem C4_device_loss_cancels_witness :
    Proxy.cancel_active_rpcs proxyW4 0 = some (proxyW4') ∧
    alookup proxyW4'.rpc_map 4 = none ∧ proxyW4'.rpc_timeouts = [] := by
  have h : Proxy.cancel_active_rpcs proxyW4 0 = some (proxyW4') := by decide
  obtain ⟨h1, h2, -⟩ :=
    C4_device_loss_cancels proxyW4 0 proxyW4' (by decide) (by decide) h
  exact ⟨h, h1 4, h2⟩

end Tio
